import Mathlib

set_option maxRecDepth 100000
set_option maxHeartbeats 1000000

/-!
Verification of the keyword-pipeline core: a shallow embedding of
`brands_catalog.py`, `keywordtool_fetch.py` and `niche_brand_audit.py`,
together with theorems about the embedded functions.

Conventions of the embedding:
* Python `None`-able values become `Option`.
* Python dicts become insertion-ordered association lists with
  `dictGet` / `dictInsert` / `dictPop` mirroring dict lookup, in-place
  update-or-append, and `dict.pop`.
* Python functions that `raise` become `Except String` with the exact
  message strings of the source.
* Timestamps are modelled at day granularity as integers; an
  unparseable timestamp is `none`.
* Numeric metric fields are modelled as `Int`.
-/

namespace KeywordPipeline

/-- Python dict lookup: first (and only) binding of the key. -/
def dictGet {α : Type} (d : List (String × α)) (k : String) : Option α :=
  (d.find? (fun p => p.1 == k)).map (fun p => p.2)

/-- Python dict assignment `d[k] = v`: update in place if the key exists
(keeping its position), otherwise append at the end. -/
def dictInsert {α : Type} (d : List (String × α)) (k : String) (v : α) :
    List (String × α) :=
  if d.any (fun p => p.1 == k) then
    d.map (fun p => if p.1 == k then (k, v) else p)
  else d ++ [(k, v)]

/-- Python `d.pop(k, None)`: remove the binding of `k` if present. -/
def dictPop {α : Type} (d : List (String × α)) (k : String) : List (String × α) :=
  d.filter (fun p => p.1 != k)

/-- ASCII lower-casing of one character, as `str.lower` acts on the
catalog's character range. -/
def pyLowerChar (c : Char) : Char :=
  if 65 ≤ c.toNat ∧ c.toNat ≤ 90 then Char.ofNat (c.toNat + 32) else c

/-- Python `str.lower()` restricted to the characters that occur in this
program's data. -/
def pyLower (s : String) : String :=
  String.mk (s.data.map pyLowerChar)

/-- NFKD decomposition followed by dropping combining marks, folded to a
per-character map for the accented Latin letters this program's data can
contain.  Characters outside the map are left alone (and are later removed
by the `[a-z0-9]` filter, exactly as the Python regex removes them). -/
def stripDiacritic (c : Char) : Char :=
  let n := c.toNat
  if n < 128 then c
  else if n == 0xe1 ∨ n == 0xc1 ∨ n == 0xe0 ∨ n == 0xe2 ∨ n == 0xe3 ∨ n == 0xe4 then 'a'
  else if n == 0xe9 ∨ n == 0xc9 ∨ n == 0xe8 ∨ n == 0xea ∨ n == 0xeb then 'e'
  else if n == 0xed ∨ n == 0xcd ∨ n == 0xec ∨ n == 0xee ∨ n == 0xef then 'i'
  else if n == 0xf3 ∨ n == 0xd3 ∨ n == 0xf2 ∨ n == 0xf4 ∨ n == 0xd4 ∨ n == 0xf5 ∨ n == 0xf6 then 'o'
  else if n == 0xfa ∨ n == 0xda ∨ n == 0xf9 ∨ n == 0xfb ∨ n == 0xfc then 'u'
  else if n == 0xf1 ∨ n == 0xd1 then 'n'
  else if n == 0xe7 ∨ n == 0xc7 then 'c'
  else c

/-- Is the character kept by the `[^a-z0-9]+` removal regex? -/
def isAlnumLower (c : Char) : Bool :=
  (97 ≤ c.toNat ∧ c.toNat ≤ 122) ∨ (48 ≤ c.toNat ∧ c.toNat ≤ 57)

/-- The character-list core of `normalize_text`. -/
def normChars (l : List Char) : List Char :=
  ((l.map pyLowerChar).map stripDiacritic).filter isAlnumLower

/-- Embedding of `brands_catalog.normalize_text`: lower + remove
diacritics + keep only `a-z0-9`.  The leading `.strip()` of the source
only removes whitespace, which the final filter removes anyway. -/
def normalize_text (s : String) : String :=
  String.mk (normChars s.data)

/-- Python whitespace characters of `str.strip` in the ASCII range. -/
def isPyWhitespace (c : Char) : Bool :=
  c.toNat == 32 ∨ (9 ≤ c.toNat ∧ c.toNat ≤ 13)

/-- Python `str.strip()`: drop leading and trailing whitespace. -/
def pyStrip (s : String) : String :=
  String.mk (((s.data.dropWhile isPyWhitespace).reverse.dropWhile isPyWhitespace).reverse)

/-- One step of the `uniq` loop: skip empty-stripping entries and
already-seen lower-casings, otherwise append the stripped entry and mark
its lower-casing as seen. -/
def uniqStep (acc : List String × List String) (x : String) :
    List String × List String :=
  let k := pyStrip x
  if k = "" then acc
  else
    let lk := pyLower k
    if lk ∈ acc.2 then acc else (acc.1 ++ [k], acc.2 ++ [lk])

/-- Embedding of `brands_catalog.uniq`: keep first occurrence of each
string, comparing case-insensitively on the stripped string, skipping
entries that strip to empty. -/
def uniq (seq : List String) : List String :=
  (seq.foldl uniqStep ([], [])).1

/-- Embedding of `brands_catalog._base_variants`: the canon, its lower
case, and the glued normalized form when distinct from the lower case. -/
def _base_variants (canon : String) : List String :=
  let glued := normalize_text canon
  let v := [canon, pyLower canon]
  let v := if glued ≠ "" ∧ glued ≠ pyLower canon then v ++ [glued] else v
  uniq v

/-- Country configuration record of `brands_catalog.COUNTRIES`. -/
structure CountryCfg where
  language : String
  location_id : Int
  title : String
deriving Repr, DecidableEq

/-- Embedding of `brands_catalog.COUNTRIES`. -/
def COUNTRIES : List (String × CountryCfg) :=
  [("ar", { language := "es", location_id := 2032, title := "Аргентина" }),
   ("br", { language := "pt", location_id := 2076, title := "Бразилия" }),
   ("pl", { language := "pl", location_id := 2616, title := "Польша" })]

/-- Lexicographic comparison of character lists by code point, the
ordering Python `sorted` uses on strings. -/
def lexLe : List Char → List Char → Bool
  | [], _ => true
  | _ :: _, [] => false
  | c :: cs, d :: ds =>
    if c.toNat < d.toNat then true
    else if d.toNat < c.toNat then false
    else lexLe cs ds

/-- String comparison by code points. -/
def strLe (s t : String) : Bool := lexLe s.data t.data

/-- Insertion into a sorted list of strings, used to model Python
`sorted`. -/
def insertSorted (x : String) : List String → List String
  | [] => [x]
  | y :: ys => if strLe x y then x :: y :: ys else y :: insertSorted x ys

/-- Python `sorted` on a list of strings (insertion sort). -/
def pySorted (l : List String) : List String :=
  l.foldr insertSorted []

/-- Embedding of `brands_catalog.get_supported_countries`. -/
def get_supported_countries : List String :=
  pySorted (COUNTRIES.map (fun p => p.1))

/-- Embedding of `brands_catalog.get_country_config`; the `KeyError` of
the source becomes an `Except.error` carrying the exact message. -/
def get_country_config (code : String) : Except String CountryCfg :=
  let code := pyLower code
  match dictGet COUNTRIES code with
  | some cfg => .ok cfg
  | none => .error ("Unknown country code: " ++ code ++ ". Supported: "
      ++ String.intercalate ", " get_supported_countries)


/-- Raw canonical brand list of scope "ar" from `CANON_BY_COUNTRY` (before `uniq`). -/
def rawCanon_ar : List String :=
  ["Betano",
   "Bet365",
   "Codere",
   "Betsson",
   "bplay",
   "BetWarrior",
   "Jugadón",
   "City Center Online",
   "Casino Magic Online",
   "Casino Club Online",
   "Casino Buenos Aires Online",
   "Palermo Online",
   "Casino del Río Online",
   "Casino Santa Fe Online",
   "Casino de Mendoza Online",
   "Casino de Córdoba Online",
   "Casino de Victoria Online",
   "Casino de Entre Ríos Online",
   "Casino de Misiones Online",
   "Casino de Tucumán Online",
   "Casino de Neuquén Online",
   "Casino de Río Negro Online",
   "Casino de San Luis Online",
   "Casino de San Juan Online",
   "Casino de Salta Online",
   "Casino de Chaco Online",
   "Casino de Corrientes Online",
   "Casino de La Pampa Online",
   "Casino de Formosa Online",
   "Betcris",
   "Rivalo",
   "Betway",
   "Betfair",
   "Pinnacle",
   "Marathonbet",
   "1xBet",
   "1win",
   "22Bet",
   "20Bet",
   "TonyBet",
   "LeoVegas",
   "Unibet",
   "William Hill",
   "Betfred",
   "Bwin",
   "888sport",
   "888casino",
   "Bodog",
   "Stake",
   "BC.GAME",
   "N1 Bet",
   "Mostbet",
   "Melbet",
   "Parimatch",
   "10bet",
   "BetVictor",
   "Campeonbet",
   "Librabet",
   "Rabona",
   "Powbet",
   "FezBet",
   "BetTilt",
   "Megapari",
   "Betobet",
   "GG.BET",
   "Pin-Up",
   "PlayUZU",
   "Vulkan Vegas",
   "SlotV",
   "Bizzo",
   "Neon54",
   "7Signs",
   "HellSpin",
   "Tsars",
   "1xSlots",
   "Wazamba",
   "BoaBoa",
   "ZetCasino",
   "Casumo",
   "NetBet",
   "LV BET",
   "Novibet",
   "Betmotion",
   "Spin Casino",
   "Spinamba",
   "Mr Green",
   "Royal Panda",
   "Karamba",
   "Bet-at-home",
   "Interwetten",
   "BetAmerica",
   "TwinSpires",
   "Tipico",
   "ComeOn",
   "Bethard",
   "BetUK",
   "Grosvenor Casino",
   "Coral",
   "Ladbrokes",
   "Paddy Power",
   "SBK",
   "PokerStars Sports",
   "PokerStars Casino",
   "PartyCasino",
   "PartyPoker",
   "BetMGM",
   "Caesars Sportsbook",
   "DraftKings",
   "FanDuel",
   "Sky Bet",
   "SugarHouse",
   "888poker",
   "GGPoker",
   "WPT Global",
   "Winamax",
   "Coolbet",
   "Betsson Group (StarCasino)",
   "StarCasino",
   "JackpotCity",
   "Royal Vegas",
   "Spin Sports",
   "EnergyCasino",
   "Mr.Play",
   "Platin Casino",
   "Playamo",
   "Casimba",
   "CasiGo",
   "PlayOJO",
   "Genesis Casino",
   "Kassu",
   "Spinit",
   "Kroon Casino",
   "Betano Casino",
   "Bet365 Casino",
   "Betway Casino",
   "Codere Casino",
   "Betsson Casino",
   "bplay Casino",
   "Casino Club",
   "Casino Buenos Aires",
   "Hipódromo Argentino de Palermo",
   "City Center Rosario",
   "Casino Victoria",
   "Casino Magic Neuquén",
   "Casino Puerto Madero",
   "Casino Trilenium",
   "Casino Tigre",
   "Casino Pinamar",
   "Casino Bariloche",
   "Casino Cipolletti",
   "Casino Maipú",
   "Casino Godoy Cruz",
   "Casino Central Mar del Plata",
   "Casino Miramar",
   "Casino Santa Rosa",
   "Casino Resistencia",
   "Casino Posadas",
   "Casino Iguazú",
   "Casino Salta",
   "Casino Termas de Río Hondo",
   "Casino Catamarca",
   "Casino Ushuaia",
   "Casino Río Grande",
   "Casino Mendoza Online",
   "Boldt Gaming",
   "Atlántica de Juegos",
   "Alea (Lotería)",
   "Lotería de la Ciudad (BA CABA Online)",
   "Lotería de la Provincia (Buenos Aires)",
   "BPlay Santa Fe",
   "BPlay Entre Ríos",
   "BPlay Buenos Aires",
   "Betpoint",
   "Betnacional (LATAM)",
   "Retabet",
   "Suertia",
   "KirolBet",
   "Codeta",
   "Betboro",
   "Dafabet",
   "12Bet",
   "10CRIC",
   "22Win",
   "1Bet",
   "Stake Originals",
   "Thunderpick",
   "Roobet",
   "Sportsbet.io",
   "Cloudbet",
   "FortuneJack",
   "mBit Casino",
   "Bitcasino.io",
   "BetFury",
   "Rollbit",
   "BC.Game Casino",
   "Rubet",
   "Blaze",
   "Betano Argentina",
   "Betway Argentina",
   "Codere Argentina",
   "Betsson Argentina",
   "bplay Argentina",
   "BetWarrior Argentina",
   "Jugadón Argentina",
   "City Center Online Argentina"]

def rawCanon_br : List String :=
  ["Betano",
   "bet365",
   "Sportingbet",
   "PixBet",
   "Betnacional",
   "Superbet",
   "Betfair",
   "Galera.bet",
   "EstrelaBet",
   "KTO",
   "Brazino777",
   "BetMGM",
   "Bet7k",
   "Vaidebet",
   "BetPix365",
   "Esportes da Sorte",
   "Casa de Apostas",
   "Rivalo",
   "Pinnacle",
   "Betway",
   "Betboo",
   "Novibet",
   "Bodog",
   "Betmotion",
   "Dafabet",
   "Bettilt",
   "Betwinner",
   "22Bet",
   "Parimatch",
   "LeoVegas",
   "Betsafe",
   "PokerStars",
   "Marathonbet",
   "BetVictor",
   "888casino",
   "TonyBet",
   "Betfred",
   "betwarrior",
   "BR4Bet",
   "Alfa.bet",
   "VersusBet",
   "BetCopa",
   "Aposta Ganha",
   "ApostaMax",
   "Aposta1",
   "AviaoBet",
   "Bateu Bet",
   "MultiBet",
   "RicoBet",
   "BRXBet",
   "PIN",
   "StartBet",
   "Luck.bet",
   "Bet4",
   "FYBet",
   "TivoBet",
   "BetFast",
   "Bravo",
   "Tradicional",
   "JonBet",
   "Bet Gorillas",
   "Bet Buffalos",
   "Bet Falcons",
   "Reals",
   "BRBet",
   "B1 Bet",
   "Apostou",
   "OleyBet",
   "OnaBet",
   "BetPark",
   "BetBoom",
   "Matchbook",
   "BetEspecial",
   "Bolsa de Aposta",
   "FulliBet",
   "BetBra",
   "ArenaPlus",
   "BingoPlus",
   "SeguroBet",
   "7Games",
   "King Panda",
   "GingaBet",
   "QGBet",
   "VivaSorte",
   "AFUN",
   "Sortenabet",
   "Betou",
   "Betfusion",
   "Sorte Online",
   "LottoLand",
   "Tiger",
   "PQ777",
   "5G",
   "BetEsporte",
   "Lance de Sorte",
   "SupremaBet",
   "MaximaBet",
   "UltraBet",
   "Bet Sul",
   "Jogo Online",
   "SeuBet",
   "H2 Bet",
   "4Win",
   "4Play",
   "Pagol",
   "Aposta10",
   "Aposte Fácil",
   "Aposta Certa",
   "Apostou Legal",
   "NossaBet",
   "PlayBets",
   "ReiBet",
   "NextBet",
   "MrJackBet",
   "F12Bet",
   "PagBet",
   "VaiBet",
   "KakáBet",
   "NacionalBet",
   "BetMais",
   "SambaBet",
   "RioBet",
   "BrasilBet",
   "CariocaBet",
   "MineiroBet",
   "GauchoBet",
   "NordesteBet",
   "AmazôniaBet",
   "PantanalBet",
   "LigaBet",
   "ArenaBet",
   "TorcidaBet",
   "CartolaBet",
   "EsportivaBet",
   "Apostou BR",
   "Bet Prime",
   "PrimeBet",
   "TopBet",
   "Ultra Aposta",
   "JetBet",
   "FlashBet",
   "TurboBet",
   "HyperBet",
   "TopPix",
   "PixWin",
   "PixLuck",
   "PixAposta",
   "PixSport",
   "PixPlay",
   "PixGol",
   "PixScore",
   "PixChance",
   "PixMaster",
   "PixPrime",
   "Rei do Pitaco",
   "Cartola FC",
   "Matchday",
   "Sorare",
   "BacanaPlay",
   "PlayUzu",
   "WJCasino",
   "Cassino",
   "Fogo777",
   "IJogo",
   "P9",
   "9F",
   "6R",
   "Bet.app",
   "Bingo",
   "Big",
   "Caesars",
   "Betsson",
   "Blaze",
   "Stake",
   "Pin-Up",
   "1win",
   "1xBet",
   "Mostbet",
   "Melbet",
   "Betano Casino",
   "KTO Casino",
   "Betway Casino",
   "LeoVegas Casino",
   "PixBet Casino",
   "EstrelaBet Casino"]

def rawCanon_pl : List String :=
  ["Superbet",
   "Betclic",
   "STS",
   "Fortuna",
   "Betfan",
   "LV BET",
   "forBET",
   "TOTALbet",
   "eWinner",
   "ETOTO",
   "PZBuk",
   "Fuksiarz",
   "Betcris",
   "Betters",
   "GO+bet",
   "AdmiralBet",
   "Lebull",
   "ComeOn",
   "Traf",
   "Noblebet",
   "BetX",
   "Totolotek",
   "Total Casino",
   "Casinos Poland",
   "Hit Casino",
   "LOTTO",
   "Totalizator Sportowy"]

def extraAliases_br : List (String × List String) :=
  [("Galera.bet", ["GaleraBet", "galera.bet", "galerabet"]),
   ("Casa de Apostas", ["CasadeApostas", "casa de apostas", "casadeapostas"]),
   ("Esportes da Sorte", ["esportes da sorte", "Esporte365", "Esporte 365"]),
   ("LV BET", ["LVBET", "lvbet", "LVBet"]),
   ("GO+bet", ["GO BET", "GoBet", "gobet", "GO+BET", "go+bet"])]

def extraAliases_pl : List (String × List String) :=
  [("LV BET", ["LVBET", "lvbet", "LVBet"]),
   ("GO+bet", ["GO BET", "GoBet", "gobet", "GO+BET", "go+bet"]),
   ("Total Casino", ["TotalCasino", "totalcasino"]),
   ("Casinos Poland", ["Casino Poland", "casinospoland"]),
   ("Hit Casino", ["HitCasino", "hitcasino"]),
   ("LOTTO", ["lotto"])]

/-- Embedding of `brands_catalog.CANON_BY_COUNTRY` (the source applies
`uniq` to each raw list). -/
def CANON_BY_COUNTRY : List (String × List String) :=
  [("ar", uniq rawCanon_ar), ("br", uniq rawCanon_br), ("pl", uniq rawCanon_pl)]

/-- Embedding of `brands_catalog.EXTRA_ALIASES_BY_COUNTRY`. -/
def EXTRA_ALIASES_BY_COUNTRY : List (String × List (String × List String)) :=
  [("br", extraAliases_br), ("pl", extraAliases_pl)]

/-- Embedding of `brands_catalog.canonical_list`. -/
def canonical_list (code : String) : Except String (List String) :=
  let code := pyLower code
  match dictGet CANON_BY_COUNTRY code with
  | some l => .ok l
  | none => .error ("Unknown country code: " ++ code)

/-- Embedding of `brands_catalog._build_variants_map`. -/
def _build_variants_map (canonList : List String)
    (extras : List (String × List String)) : List (String × List String) :=
  canonList.foldl
    (fun out c => dictInsert out c (uniq (_base_variants c ++ ((dictGet extras c).getD []))))
    []

/-- Embedding of `brands_catalog._make_reverse_index`: later writes
overwrite earlier ones, exactly as Python dict assignment does. -/
def _make_reverse_index (vm : List (String × List String)) : List (String × String) :=
  vm.foldl
    (fun rev cv => cv.2.foldl (fun rev v => dictInsert rev (normalize_text v) cv.1) rev)
    []

/-- The variant map `_ensure_country_built` computes for a scope (the
memoization cache of the source is a pure recomputation here); carries the
exact `KeyError` message of `_ensure_country_built`. -/
def variants_map (code : String) : Except String (List (String × List String)) :=
  let code := pyLower code
  match dictGet CANON_BY_COUNTRY code with
  | none => .error ("Unknown country code for brands: " ++ code)
  | some canon =>
      .ok (_build_variants_map canon ((dictGet EXTRA_ALIASES_BY_COUNTRY code).getD []))

/-- The reverse index `_ensure_country_built` computes for a scope. -/
def _reverse_index (code : String) : Except String (List (String × String)) :=
  (variants_map code).map _make_reverse_index

/-- Embedding of `brands_catalog.canonicalize`: look up the normalized
surface string in the scope reverse index. -/
def canonicalize (code s : String) : Except String (Option String) :=
  (_reverse_index code).map (fun rev => dictGet rev (normalize_text s))

/-! ### Embedding of `keywordtool_fetch.py` (aggregation to canonical records) -/

/-- A row of `flatten_results`: one keyword observation with its metric
bundle.  Every metric field is independently optional. -/
structure Row where
  keyword : String
  country : String
  language : Option String
  search_volume : Option Int
  cpc : Option Int
  competition : Option Int
  trend : Option String
deriving Repr, DecidableEq

/-- An aggregated record of `aggregate_to_canonical` (the dict stored in
`agg[canon]`).  Its `search_volume` is always a number because the source
materializes `r.get("search_volume") or 0` on first insertion. -/
structure AggRec where
  keyword : String
  country : String
  language : Option String
  search_volume : Int
  cpc : Option Int
  competition : Option Int
  trend : Option String
deriving Repr, DecidableEq

/-- Python `x or 0` on an optional number: `None` and `0` are falsy. -/
def pyOrZero (o : Option Int) : Int :=
  match o with
  | none => 0
  | some v => if v = 0 then 0 else v

/-- Python `v or 0` on a number already known to be a number. -/
def pyOrZeroInt (v : Int) : Int :=
  if v = 0 then 0 else v

/-- One step of the `aggregate_to_canonical` loop, after the row's
keyword has been canonicalized to `canonResult`. -/
def aggStep (country_code : String) (agg : List (String × AggRec)) (r : Row)
    (canonResult : Option String) : List (String × AggRec) :=
  match canonResult with
  | none => agg
  | some canon =>
    let sv := pyOrZero r.search_volume
    match dictGet agg canon with
    | none =>
        agg ++ [(canon,
          { keyword := canon, country := country_code, language := r.language,
            search_volume := sv, cpc := r.cpc, competition := r.competition,
            trend := r.trend })]
    | some incumbent =>
        if pyOrZeroInt sv > pyOrZeroInt incumbent.search_volume then
          dictInsert agg canon
            { incumbent with
              search_volume := sv
              cpc := r.cpc
              competition := r.competition
              trend := r.trend }
        else agg

/-- The accumulating loop of `aggregate_to_canonical` (the `agg` dict
after all rows).  The `canonicalize` call inside the loop can raise on an
unknown country, hence the monadic fold. -/
def aggFold (rows : List Row) (country_code : String) :
    Except String (List (String × AggRec)) :=
  rows.foldlM
    (fun agg r => do
      let c ← canonicalize country_code r.keyword
      pure (aggStep country_code agg r c))
    []

/-- Embedding of `keywordtool_fetch.aggregate_to_canonical`: fold the rows
into a per-canon dict, then emit `list(agg.values())`. -/
def aggregate_to_canonical (rows : List Row) (country_code : String) :
    Except String (List AggRec) :=
  (aggFold rows country_code).map (fun agg => agg.map (fun p => p.2))

/-- Provenance of one aggregation entry: the record is keyed by its own
canon, carries the scope as country, takes its language from one
contributing observation and every metric field from a single
contributing observation. -/
def RecOK (code : String) (S : Row → Prop) (p : String × AggRec) : Prop :=
  p.2.keyword = p.1 ∧ p.2.country = code ∧
  ∃ f w, S f ∧ S w
    ∧ canonicalize code f.keyword = .ok (some p.1)
    ∧ canonicalize code w.keyword = .ok (some p.1)
    ∧ p.2.language = f.language
    ∧ p.2.search_volume = pyOrZero w.search_volume
    ∧ p.2.cpc = w.cpc
    ∧ p.2.competition = w.competition
    ∧ p.2.trend = w.trend

/-! ### Embedding of `niche_brand_audit.py` -/

/-- One step of the run splitter: the accumulator carries the run being
built to the right of the current position and the completed runs. -/
def runStep (c : Char) (acc : List Char × List String) : List Char × List String :=
  if isAlnumLower c then (c :: acc.1, acc.2)
  else if acc.1.isEmpty then acc
  else ([], String.mk acc.1 :: acc.2)

/-- Splits a list of characters into the maximal runs matched by the
regex `[a-z0-9]+`. -/
def alnumRuns (l : List Char) : List String :=
  let acc := l.foldr runStep ([], [])
  if acc.1.isEmpty then acc.2 else String.mk acc.1 :: acc.2

/-- Embedding of `niche_brand_audit._normalize_tokens`: lower + strip
diacritics, take the `[a-z0-9]+` runs, keep those of length at least 3. -/
def _normalize_tokens (s : String) : List String :=
  (alnumRuns ((s.data.map pyLowerChar).map stripDiacritic)).filter
    (fun t => t.length ≥ 3)

/-- Embedding of the per-title check inside `any_brand_in_title`. -/
def titleMatches (b_tokens : List String) (t : String) : Bool :=
  let t_tokens := (_normalize_tokens t).dedup
  if t_tokens.isEmpty then false
  else
    (b_tokens.any (fun bt => bt.length ≥ 4 && t_tokens.contains bt)) ||
    (decide (b_tokens.length ≥ 2) &&
      decide ((t_tokens.filter (fun tt => b_tokens.contains tt)).length ≥ 2))

/-- Embedding of `niche_brand_audit.any_brand_in_title`: tokenize the
brand; reject single brand tokens shorter than 4; otherwise scan the
titles for a verbatim long token or a 2-token intersection. -/
def any_brand_in_title (brand : String) (titles : List String) : Bool :=
  let b_tokens := _normalize_tokens brand
  if b_tokens.isEmpty ∨ (b_tokens.length = 1 ∧ (b_tokens.headD "").length < 4) then
    false
  else titles.any (titleMatches b_tokens)

/-- A Google Play search result of `play_search_candidates`. -/
structure PlayItem where
  appId : String
  title : String
  url : String
deriving Repr, DecidableEq

/-- A persisted cache record `{"ts": ..., "data": ...}` of the
`play_search` cache.  `ts` is the parsed timestamp in whole days
(`none` when missing or unparseable, which `_expired` treats as
expired); `data` is `none` when absent or not a list. -/
structure CacheRec where
  ts : Option Int
  data : Option (List PlayItem)
deriving Repr, DecidableEq

/-- Embedding of `niche_brand_audit._expired` at day granularity:
`(_now() - ts).days >= ttl_days`, and a timestamp that fails to parse is
expired. -/
def _expired (ts : Option Int) (now ttl_days : Int) : Bool :=
  match ts with
  | none => true
  | some t => now - t ≥ ttl_days

/-- Result of one `play_search_cached` call: the returned payload, the
cache state afterwards, and whether `play_search_candidates` was
invoked. -/
structure CacheOutcome where
  result : List PlayItem
  cache : List (String × CacheRec)
  invoked : Bool
deriving Repr, DecidableEq

/-- The tail of `play_search_cached` after a cache miss: compute, then
persist a non-empty payload or drop the key for an empty one. -/
def finishCompute (cache : List (String × CacheRec)) (key : String)
    (now : Int) (computed : List PlayItem) : CacheOutcome :=
  if computed.isEmpty then
    { result := computed, cache := dictPop cache key, invoked := true }
  else
    { result := computed,
      cache := dictInsert cache key { ts := some now, data := some computed },
      invoked := true }

/-- Embedding of `niche_brand_audit.play_search_cached`.  The md5 cache
key and the `play_search_candidates` result are parameters: the claim
quantifies over keys, and the compute function is external I/O. -/
def play_search_cached (cache : List (String × CacheRec)) (key : String)
    (now ttl_days : Int) (computed : List PlayItem) : CacheOutcome :=
  match dictGet cache key with
  | some r =>
    if _expired r.ts now ttl_days then finishCompute cache key now computed
    else
      match r.data with
      | some l =>
        if l.isEmpty then finishCompute (dictPop cache key) key now computed
        else { result := l, cache := cache, invoked := false }
      | none => finishCompute (dictPop cache key) key now computed
  | none => finishCompute cache key now computed

/-- An enriched Google Play candidate of `audit_country_all_brands`:
the search hit plus the AppstoreSpy `daily` and `banned` fields. -/
structure Cand where
  appId : String
  title : String
  url : String
  daily : Option Int
  banned : Option Bool
deriving Repr, DecidableEq

/-- The key function `lambda x: x["daily"]` (only ever applied to
candidates whose `daily` is present). -/
def keyDaily (x : Cand) : Int := x.daily.getD 0

/-- Python `max(iterable, key=...)`: scan left to right, replace the
running best only on strictly greater key, so the first maximal element
wins. -/
def pyMaxByDaily (h : Cand) (t : List Cand) : Cand :=
  t.foldl (fun best x => if keyDaily x > keyDaily best then x else best) h

/-- Embedding of the competitor selection of `audit_country_all_brands`
(step 3): `max(non_null, key=daily)` when some candidate has a daily
value, otherwise the first candidate; `none` on an empty list. -/
def selectTop (enriched : List Cand) : Option Cand :=
  if enriched.isEmpty then none
  else
    match enriched.filter (fun x => x.daily.isSome) with
    | [] => enriched.head?
    | h :: t => some (pyMaxByDaily h t)

/-- A Python JSON-like payload value, as AppstoreSpy responses are
modelled: booleans, numbers, strings, `None`, and nested dicts. -/
inductive PyVal where
  | vNull : PyVal
  | vBool : Bool → PyVal
  | vNum : Int → PyVal
  | vStr : String → PyVal
  | vDict : List (String × PyVal) → PyVal

/-- A single-quote character, used by Python `repr` of strings. -/
def sq : String := String.singleton (Char.ofNat 39)

mutual
/-- Python `repr` of a payload value (enough of it for `str(dict)`). -/
def pyRepr : PyVal → String
  | .vNull => "None"
  | .vBool b => if b then "True" else "False"
  | .vNum n => toString n
  | .vStr s => sq ++ s ++ sq
  | .vDict fs => "\x7b" ++ String.intercalate ", " (pyReprFields fs) ++ "\x7d"

/-- Python `repr` of each dict field, `'key': value`. -/
def pyReprFields : List (String × PyVal) → List String
  | [] => []
  | (k, v) :: rest => (sq ++ k ++ sq ++ ": " ++ pyRepr v) :: pyReprFields rest
end

/-- Python `str()` of a payload value: a string is itself, anything else
is its repr. -/
def pyStr : PyVal → String
  | .vStr s => s
  | v => pyRepr v

/-- Is `pat` a prefix of the character list? -/
def listPrefix : List Char → List Char → Bool
  | [], _ => true
  | _ :: _, [] => false
  | c :: cs, d :: ds => c == d && listPrefix cs ds

/-- Does the character list contain `pat` as a contiguous sublist? -/
def hasSubAux (pat : List Char) : List Char → Bool
  | [] => listPrefix pat []
  | c :: cs => listPrefix pat (c :: cs) || hasSubAux pat cs

/-- Python `pat in s` substring containment. -/
def strContains (s pat : String) : Bool := hasSubAux pat.data s.data

/-- The direct boolean ban fields of `_extract_banned_flag`. -/
def BAN_BOOL_KEYS : List String :=
  ["is_banned", "banned", "removed", "suspended", "unpublished", "deleted"]

/-- The first group of inverted boolean fields (new v1 API keys). -/
def PUB_KEYS : List String := ["published", "listing_visible"]

/-- The nested sub-objects searched recursively. -/
def NESTED_KEYS : List String := ["summary", "metrics", "app", "details"]

/-- The second group of inverted boolean fields, checked after the
recursive search in the source. -/
def PUB2_KEYS : List String := ["is_published", "is_available"]

/-- The ban vocabulary matched against the status string. -/
def BAN_WORDS : List String :=
  ["banned", "removed", "suspended", "unpublished", "deleted",
   "not available", "terminated"]

/-- The loop over direct boolean flags: return true on the first field
holding boolean `True`; fields holding `False` do not decide. -/
def firstBoolTrue (data : List (String × PyVal)) (keys : List String) : Bool :=
  keys.any (fun k =>
    match dictGet data k with
    | some (.vBool true) => true
    | _ => false)

/-- The loop over inverted boolean flags: return `not v` for the first
field holding a boolean. -/
def firstInvertedBool (data : List (String × PyVal)) : List String → Option Bool
  | [] => none
  | k :: rest =>
    match dictGet data k with
    | some (.vBool b) => some (!b)
    | _ => firstInvertedBool data rest

/-- The status-string test of `_extract_banned_flag`:
`str(data.get("status","")).lower()` matched against the vocabulary. -/
def statusHasBanWord (data : List (String × PyVal)) : Bool :=
  let status := pyLower (pyStr ((dictGet data "status").getD (.vStr "")))
  BAN_WORDS.any (fun w => strContains status w)

/-- The nested-object loop shared by the extractor and its spec-side
reformulations: try the keys in order; on the first key holding a dict,
use the recursive result if it decides, otherwise keep scanning. -/
def scanNested (rec : List (String × PyVal) → Option Bool)
    (data : List (String × PyVal)) (keys : List String) : Option Bool :=
  keys.foldl
    (fun acc top =>
      match acc with
      | some v => some v
      | none =>
        match dictGet data top with
        | some (.vDict fs) => rec fs
        | _ => none)
    none

mutual
/-- Structural depth of a payload value, used as a termination bound. -/
def pyDepth : PyVal → Nat
  | .vDict fs => fieldsDepth fs + 1
  | _ => 1

/-- Structural depth of a payload dict, used as a termination bound. -/
def fieldsDepth : List (String × PyVal) → Nat
  | [] => 1
  | (_, v) :: rest => max (pyDepth v) (fieldsDepth rest) + 1
end

/-- The recursion core of `_extract_banned_flag`, structurally recursive
on a fuel bound.  The fuel only serves termination: the top-level wrapper
seeds it with `fieldsDepth data`, which strictly exceeds the nesting
depth of any payload (`banGo_fuel_irrel` below shows any adequate fuel
gives the same answer), so the zero-fuel branch is unreachable. -/
def banGo : Nat → List (String × PyVal) → Option Bool
  | 0, _ => none
  | fuel + 1, data =>
    if firstBoolTrue data BAN_BOOL_KEYS then some true
    else
      match firstInvertedBool data PUB_KEYS with
      | some b => some b
      | none =>
        if statusHasBanWord data then some true
        else
          match scanNested (banGo fuel) data NESTED_KEYS with
          | some b => some b
          | none => firstInvertedBool data PUB2_KEYS

/-- Embedding of `niche_brand_audit._extract_banned_flag`: direct boolean
ban fields, then inverted `published`/`listing_visible` booleans, then
the status vocabulary, then recursion into known nested sub-objects, then
inverted `is_published`/`is_available` booleans, else unknown. -/
def _extract_banned_flag (data : List (String × PyVal)) : Option Bool :=
  banGo (fieldsDepth data) data

/-- The availability strategy order exactly as the claim states it,
structurally on the recursion depth: direct boolean ban fields; then
inverted published/available-style booleans (all four such fields); then
the status vocabulary; then recursive search into the known nested
sub-objects, bounded by the depth; otherwise unknown.  The claim's ONE
level of recursive search is depth 1. -/
def claimedBanFlag : Nat → List (String × PyVal) → Option Bool
  | 0, _ => none
  | depth + 1, data =>
    if firstBoolTrue data BAN_BOOL_KEYS then some true
    else
      match firstInvertedBool data (PUB_KEYS ++ PUB2_KEYS) with
      | some b => some b
      | none =>
        if statusHasBanWord data then some true
        else scanNested (claimedBanFlag depth) data NESTED_KEYS

/-- First decided result of an ordered strategy list. -/
def resolveOrdered : List (Option Bool) → Option Bool
  | [] => none
  | some b :: _ => some b
  | none :: rest => resolveOrdered rest

/-- Strategy 1 of the amended order: a direct boolean ban field that is
explicitly true decides "banned". -/
def directBanStrategy (data : List (String × PyVal)) : Option Bool :=
  if firstBoolTrue data BAN_BOOL_KEYS then some true else none

/-- Status-vocabulary strategy of the amended order. -/
def statusStrategy (data : List (String × PyVal)) : Option Bool :=
  if statusHasBanWord data then some true else none

/-- The amended availability strategy order, stated as an ordered
strategy table: direct boolean ban fields; inverted `published` and
`listing_visible` booleans; the status vocabulary; recursive search into
the known nested sub-objects at any depth; inverted `is_published` and
`is_available` booleans; otherwise unknown.  Fuel as in `banGo`. -/
def amendedGo : Nat → List (String × PyVal) → Option Bool
  | 0, _ => none
  | fuel + 1, data =>
    resolveOrdered
      [directBanStrategy data,
       firstInvertedBool data PUB_KEYS,
       statusStrategy data,
       scanNested (amendedGo fuel) data NESTED_KEYS,
       firstInvertedBool data PUB2_KEYS]

/-- The amended strategy order at the same recursion bound as the
extractor. -/
def amendedBanFlag (data : List (String × PyVal)) : Option Bool :=
  amendedGo (fieldsDepth data) data

/-! ### Numeric string encoding used to discharge catalog-scale
side conditions cheaply -/

/-- Base-256 numeral encoding of a character list with a leading 1,
injective on characters below 256. -/
def chN : List Char → Nat
  | [] => 1
  | c :: cs => chN cs * 256 + c.toNat

/-- Binary lookup tree from encoded normalized keys to encoded canonical
names.  Only the function it computes matters to the proofs; no search
invariant is required. -/
inductive NTree where
  | leaf : NTree
  | node : NTree → Nat → Nat → NTree → NTree

/-- Lookup in the binary tree. -/
def bstFind : NTree → Nat → Option Nat
  | .leaf, _ => none
  | .node l k v r, q =>
    if q < k then bstFind l q else if k < q then bstFind r q else some v

/-- Encoded normalized key of a string. -/
def keyN (s : String) : Nat := chN (normalize_text s).data

/-- Encoded identity of a string. -/
def idN (s : String) : Nat := chN s.data

/-- Are all characters of the string below 256 (so `idN` is faithful)? -/
def bytesOk (s : String) : Bool := s.data.all (fun c => c.toNat < 256)

/-- The per-canon self-lookup check: the canon's bytes are in range and
the table maps its normalized key to its own encoded identity. -/
def canonSelf (t : NTree) (c : String) : Bool :=
  bytesOk c && (bstFind t (keyN c) == some (idN c))

/-- Lookup table for scope ar: encoded normalized key to encoded canon. -/
def T_ar : NTree :=
  (.node (.node (.node (.node (.node (.node (.node (.node .leaf 23814771 21709395 .leaf) 6147372849 6147372849 (.node .leaf 6147372898 6147372866 .leaf)) 6247768625 6247760433 (.node (.node .leaf 1535104873587 1535104873555 .leaf) 1535356529762 1535356529730 .leaf)) 1543762112354 1543762112322 (.node (.node (.node .leaf 1561043690850 1423067866434 .leaf) 1565002985315 1565002985283 .leaf) 1573727449650 1573725352498 (.node (.node .leaf 1578307840354 1578307840322 .leaf) 1582518135152 404986113452368 .leaf))) 1595351855988 1595351855956 (.node (.node (.node (.node .leaf 1599428767793 1599428767793 .leaf) 1599428767794 1599426670642 (.node .leaf 1599428768110 409453226635598 .leaf)) 1599428768305 1599426671153 (.node (.node .leaf 1599428768306 1599426671154 .leaf) 1599428781927 374131416516423 .leaf)) 1599428785522 1599428785490 (.node (.node (.node .leaf 1599428785772 374131415602764 .leaf) 1599428786225 1599426689073 .leaf) 1603959742827 1603959742795 (.node (.node .leaf 1608271228019 1470832274515 .leaf) 1620837167202 1620837167202 .leaf)))) 338879067415918 338879067415886 (.node (.node (.node (.node (.node .leaf 339981884482914 339981884482882 .leaf) 388601919725938 388601919725906 (.node .leaf 388605996527458 388605459656514 .leaf)) 388627521892195 388627521892163 (.node (.node .leaf 390779518529585 355457168519217 .leaf) 392995436716898 91564310193390402 .leaf)) 393016978468707 393016978468675 (.node (.node (.node .leaf 401765962114402 366443614201154 .leaf) 402899698806627 402762259853123 .leaf) 403947738130804 403947738130772 (.node (.node .leaf 403964918194531 403827479241027 .leaf) 403986259011954 403986259011922 .leaf))) 403990889324899 403990889324867 (.node (.node (.node (.node .leaf 403994848814434 403994848814402 .leaf) 408392995271479 408392995263287 (.node .leaf 409453768306293 409453768306261 .leaf)) 409453768500589 409453768500557 (.node (.node .leaf 409453768699762 409453768699730 .leaf) 409453769024878 409453232153934 .leaf)) 409453769224048 409453769224016 (.node (.node (.node .leaf 409453769354099 104820026023439187 .leaf) 409453769418086 409453232547142 .leaf) 409471149502579 409471149502547 (.node (.node .leaf 414934314807917 106223184049500749 .leaf) 414934499616098 414934499616066 .leaf))))) 99468888704704875 99468888704704843 (.node (.node (.node (.node (.node (.node .leaf 99468888705229175 99468888705229143 .leaf) 99468888838988131 99468888838988099 (.node .leaf 99476615635236211 99476615635236179 .leaf)) 100316633728574818 100316633728574786 (.node (.node .leaf 100330854398846306 100330854398846274 .leaf) 102568446393213286 102568445856342342 .leaf)) 103131327861584493 26401619932023386701 (.node (.node (.node .leaf 103142318397683050 103287453932549450 .leaf) 103142383125030242 103142383125030210 .leaf) 103418343463152752 94375822397369424 (.node (.node .leaf 103421581868493936 103421581868493904 .leaf) 103427139171542370 103427139171542338 .leaf))) 104257253488486247 104257253486380871 (.node (.node (.node (.node .leaf 104261608434591074 104261608434591042 .leaf) 104543156375414114 104543156375414082 (.node .leaf 104555238269351985 104555238267254833 .leaf)) 104820164551663972 104820164551663940 (.node (.node .leaf 104820164552582514 104820164552582482 .leaf) 104820164686933870 104820164686933838 .leaf)) 104820164736806755 104820164736806723 (.node (.node (.node .leaf 104820164787463522 104820164787463490 .leaf) 104820164871286637 104820164871286605 .leaf) 104820164954845044 104820027515891540 (.node (.node .leaf 104824562783121266 104824562783121234 .leaf) 104827891517515106 104827890980644162 .leaf)))) 105124811279264880 96082290213481552 (.node (.node (.node (.node (.node .leaf 105941713657162103 105941713657162071 .leaf) 106241914775561570 106241914238690626 (.node .leaf 25464035508337864819 25464035508337864787 .leaf)) 25755069639140731248 25755069639140731216 (.node (.node .leaf 26044986730335397229 26044986730335397197 .leaf) 26402757931478836584 26402757794039883080 .leaf)) 26689856893049387064 26689856893049387064 (.node (.node (.node .leaf 26760784146288567660 26760784145751696716 .leaf) 26833962125427370348 26833962125427370316 .leaf) 26833962138363456611 26833962138363456579 (.node (.node .leaf 26833962172622727531 26833926988250638667 .leaf) 26836503156896327010 26836503156896326978 .leaf))) 26837635658214291512 26837635658214291512 (.node (.node (.node (.node .leaf 6593373270635919467874 432103310644431703078364482 .leaf) 6647994326565040316784 6647994326565040316752 .leaf) 6721632136511056277623 1720737826946691556986967 (.node (.node .leaf 6759536406810387047778 6759536406810387047746 .leaf) 6777911092130245785656 6777911092130245785656 .leaf)) 6777911092130249729402 6777911092129712858458 (.node (.node (.node .leaf 6833326460612652590434 6833326460612115719490 .leaf) 6851050108703650111852 6851050108703650111820 .leaf) 1668829194363323794351458 1668829194363323257480514 (.node (.node .leaf 1668847996622383422730098 427225087126239440923094866 .leaf) 1673883814201177220014435 428514254107422956769730883 .leaf)))))) 1688014672050005261907315 1688014672014820889818451 (.node (.node (.node (.node (.node (.node (.node .leaf 1735145239585343830323315 444197181333812501266657363 .leaf) 1735145239585343896908915 1735145239585206457955411 (.node .leaf 1735145239585343930983021 444197181333812501367308909 .leaf)) 1749146461343164813959536 1749146461307980441870672 (.node (.node .leaf 1749147326034292999741808 447781715455674042338795856 .leaf) 1749330785515234758255970 1749330785515234221385026 .leaf)) 1753794749811154619035506 448971455942564867177279314 (.node (.node (.node .leaf 1753869330540316993353588 1753869330540179554400084 .leaf) 1753905935792594862830180 1753905935757410490741316 .leaf) 1754146033390272496889971 449061384547874239907721299 (.node (.node .leaf 1758590545507897307914595 1758590545507897307914563 .leaf) 427248773044080420717948001 6031634270292407708419461537426497 .leaf))) 427300608106415702154633571 109388955672914341340032229699 (.node (.node (.node (.node .leaf 432126774994930338295406947 110624454396374088192070213955 .leaf) 434525774344589846669717346 111238598232205901257801232194 (.node .leaf 439309383802745026533027686 439309381496902017319333702 .leaf)) 439309531812692386414684276 439309531812692386414684244 (.node (.node .leaf 440560958352780338603518327 112783604742470890473617385815 .leaf) 442945957203277876676554345 442945957203277876676554313 .leaf)) 444173679823879480469121378 113708155099895997549623142722 (.node (.node (.node .leaf 444173771407111259694264435 113708155191479229328848285779 .leaf) 444197181333848020663366251 113714478421456000324364890699 .leaf) 444197181333848067672928354 113714478421456000371374452834 (.node (.node .leaf 444197181333848067992084848 444197181333812883619995984 .leaf) 448971455951657781261268342 114936692721296608196171691350 .leaf)))) 450199179650025026340675949 450199179650025026340675917 (.node (.node (.node (.node (.node .leaf 451460179690855736078983523 156735312304769884165061697859 .leaf) 456314772581331252893933930 456314770275488243680239946 (.node .leaf 110609919157145797998536323170 7246376221215594297487683264204866 .leaf)) 113714478421465030371839337826 29110906475892736020119429604674 (.node (.node .leaf 113714478421465083385391571810 7452392057828540434722042810352450 .leaf) 113714478421465083406933323619 29110906475892736073154523590467 .leaf)) 113714478421465093264134728816 29110906475892736083011724995664 (.node (.node (.node .leaf 113714478421465094384803669346 29110906475892736084132393936194 .leaf) 113714478421465105324454471010 29110906475892736095072044737858 .leaf) 113714478421465105350139407973 113714478421456098150884666949 (.node (.node .leaf 115585857848624199951728206179 40127325223642624009172212212035 .leaf) 28000155113814714579587989463395 7168039709136564604296113748664643 .leaf))) 28318624817936527769546714276208 7249567953391155121201179265884496 (.node (.node (.node (.node .leaf 29110906475895063882211567887714 7452392057828540437257594676208962 .leaf) 29110906475895065282989146400103 7452392057828540438658372254721351 (.node .leaf 29344572409251101757412625047907 7512210536768279721819220458299715 .leaf)) 29344572409324887889282533122403 7512210536787168971577916925370691 (.node (.node .leaf 29423789691525655629276371968355 7532490161030565513016339669934403 .leaf) 7168044963184551364722492167119203 1835019510575245147040879583228551491 .leaf)) 7168438324648365941712482749673570 1835120211109981681069290631021228130 (.node (.node (.node .leaf 7533360758031859197424316037821555 1928540354056155954531541814521984083 .leaf) 7533600923216498079406220517339234 493724744825312708649256734884673376322 .leaf) 1834897811776361377774913962722419043 469733839814748512708049896045385310531 (.node (.node .leaf 1835120211109981681078373666580098915 469790774044155310353738379624098066243 .leaf) 1835120211109981681078384644450444642 469790774044155310353738390601968411970 .leaf))))) 1835120211109981681078395584101246306 469790774044155310353738401541619213634 (.node (.node (.node (.node (.node (.node .leaf 1835222097892359933123388636965069155 120273114753280889796318757656592752271683 .leaf) 1855686964713527154546042393265922403 121614300919455716605476438486756088832323 (.node .leaf 1855767227167700186393401448874598755 475076410154931247714382692500343316803 .leaf)) 1897569748411867876473332415866298723 485777855593438176374845020050218508611 (.node (.node .leaf 1907812366804258980370170848706785895 488399965901851226169899278235650191943 .leaf) 1965070317246140747026660321140105571 128782847654957774312997098794498284282179 .leaf)) 469790774044155310356066188616415016298 120266438155303759450557027858876549526858 (.node (.node (.node .leaf 469790774044155310356066188681142363490 120266438155303759450557027713805742007618 .leaf) 475107685393481739436060217626592502115 31136657269944663525543611308680762728079683 .leaf) 475107685393481814699355584296517921123 31136657269944663544811017250591108649740611 (.node (.node .leaf 480455973709058578963183779240398250339 122996729269518996214572719407130398122307 .leaf) 485674231734973364523209350518834226530 6630051200328386057056643113407906199576536386 .leaf))) 488399965901890303751537922458870574960 125030391270873913904270989378332010442576 (.node (.node (.node (.node .leaf 493670328962727285367036235305655758946 32353178678245683568199721932382181486514242 .leaf) 493748213895616576977334808926720061296 126399542757267839850074992314101478944592 (.node .leaf 120259760739140829318371503422807481737571 30786498749220052305503102548160303770853699 .leaf)) 121627567460731326447796459135215355519331 7970984261105833862834119339798508969443680579 (.node (.node .leaf 123670621841607503716907918485787339219299 31659679191451520951527830856070984586584387 .leaf) 125023791497923166665270358415083167836515 8193559199607890089911832258769024997504870723 .leaf)) 126379604214458185053961276227308542452067 8282413741630894993459128814689827521217913155 (.node (.node (.node .leaf 126392839299602717663619670400761615643745 8283281116338109201265243621616971504209916993 .leaf) 31136657269947223284508159760696476385370467 522386424535831928288537300131018870001874383364419 .leaf) 31917621278869395038640477965885144271380835 2094696926498190061159776409378151434118132621635 (.node (.node .leaf 32009135900018321729011695411344426252067171 2097750730343432976627172465527882104055683834179 .leaf) 7881781290945987179390778246545352406403933538 2017736010482172717914036593161250187549462521154 .leaf)))) 7970984261106488055036843564446747581914243427 133730924681172973566721301270213435606703506441068867 (.node (.node (.node (.node (.node .leaf 7970984261106488056897394475701923396965327203 522386424535831927995481384272438713686208627827011 .leaf) 7970984261106488367603494932434951976231592291 133730924681172973586551476562496506812658010467557699 (.node .leaf 7970984261106489158956608174586321710450172259 133730924681172973639067786963703542736791237073002819 .leaf)) 522386424535874800810049818754702914031147291992419 8764189879905351995644736736379716597334270635819652047171 (.node (.node .leaf 522386424535874801093844165941969557963245551313251 2243632609255770110889813882910908710572376004924627672588611 .leaf) 522386424535874801154853567381925043576090215539043 8764189879905351995667333794808898205519710466185532498243 .leaf)) 522386424535874801296827644359600528359405267411299 8764189879905351995676638207917707146090469801425032667459 (.node (.node (.node .leaf 522386424535874868289473356918709348021666867011939 8764189879905352000237209420796450133427543081332344316227 .leaf) 522386424535874868290103791087433667286113553965411 2243632609255770112017179877953740517215797028886375017177411 .leaf) 522386424535874868371235604378387067910897888616803 8764189879905352000247884703429107235969818953805362061635 (.node (.node .leaf 522386424535874894413847979560804816020310659916131 2243632609255770112455463576932502975226278780319485131972931 .leaf) 133730924681183949043780550954037908980496100192641379 2243632609255770110887438625910074605984336313922565342191939 .leaf))) 133730924681183967699479263040005244392858898786378083 574369947969477148700174974988811897254616868942430361913352515 (.node (.node (.node (.node .leaf 133730924681183972949034154624977243111547058353561955 2243632609255770112454093326080253286185948869516599433060675 .leaf) 137457782467711178164688971247532488578341906628698467 590376680267413643143862528617046687225105974174248681348489539 .leaf) 137472369027719756353958845639571414991739967793030498 477960064729870703212533810067659939080891238017034003330393410 (.node (.node .leaf 34235116718383097074973390443152649801438416181430280547 574369947969477148788249244421270038867877339406850740949573955 .leaf) 34235116718383097088219122587570637622035247739203445091 147038706680186150090025520964999328246373632996232360681496863043 .leaf)) 8666681857974477278284687022767874632687207322092928459107 37223115144044982262576434419697760347030699871419866563512794046787 (.node (.node (.node .leaf 8764189879906072851195872451261230982140802135672667464035 147038706680186150089791982546060053549835087966685328471777042755 .leaf) 2218524205307505923713821181368089404625797174593865523685731 37220659793672373303242072906789390328050820264724410570021948123459 .leaf) 151150917457536313605170149999128778296875989820899321394599324008 2535891590783256769951432002701688207152489555873327805188008787315812680 (.node (.node .leaf 9636328680993470389398266995678292586966183209877215032818332006117228 147902048637407858152838570034129229684069532119983442961724198283515516774476554687508300 .leaf) 656200421945606096444707085470340142521326735333345339200110707353249410924 37869869560668911830579153932244097874060917803974914014544883500970093685689057776881659724 .leaf)))))))

/-- Lookup table for scope br: encoded normalized key to encoded canon. -/
def T_br : NTree :=
  (.node (.node (.node (.node (.node (.node (.node (.node .leaf 80240 80208 .leaf) 91705 83513 .leaf) 91957 83765 (.node (.node .leaf 94774 86582 .leaf) 23554402 23554370 .leaf)) 24013168 21907792 (.node (.node (.node .leaf 24081515 21976139 .leaf) 5175010658 5175010626 .leaf) 6147372849 6147372849 (.node (.node .leaf 6147372852 6147364660 .leaf) 6148154977 5609178689 .leaf))) 1336661209456 1336661201232 (.node (.node (.node (.node .leaf 1535104873587 1535104873555 .leaf) 1535356529762 1535356529730 .leaf) 1543762112354 1543762112322 (.node (.node .leaf 1560003503458 1560003503426 .leaf) 1565237141872 1565237141840 .leaf)) 1577988286818 1577988286786 (.node (.node (.node .leaf 1577988352617 1577988344393 .leaf) 1578239095394 1578239095362 .leaf) 1582518135152 404986113452368 (.node (.node .leaf 1590839175540 1590839175508 .leaf) 1595251189106 1595251189074 .leaf)))) 1599428768098 409453226635586 (.node (.node (.node (.node (.node .leaf 1599428768306 1599426671154 .leaf) 1599428768360 409453226635848 .leaf) 1599428781937 1599426676561 (.node (.node .leaf 1599428784738 1599426679362 .leaf) 1599428786225 1599426689073 .leaf)) 1599428786534 1599426681158 (.node (.node (.node .leaf 1603892700514 1603892700482 .leaf) 1620837167156 1620837158964 .leaf) 339981884482914 339981884482914 (.node (.node .leaf 388618882671970 388618345801026 .leaf) 393016912277363 393016912277331 .leaf))) 400700709824880 400700172953936 (.node (.node (.node (.node .leaf 400726680692066 102585891409913154 .leaf) 401765962114402 366443614201154 .leaf) 402874231712112 402873694841168 (.node (.node .leaf 403986259011954 403986259011922 .leaf) 403994848814434 403994848814402 .leaf)) 403999160558946 403999160558914 (.node (.node (.node .leaf 405102950376802 103706354123040066 .leaf) 408354440701751 408354440693559 .leaf) 409453764686182 409453227815238 (.node .leaf 409453764833890 409453227954754 .leaf))))) 409453767781999 409453230911055 (.node (.node (.node (.node (.node (.node .leaf 409453768171888 409453231300944 .leaf) 409453768302966 409453231432022 .leaf) 409453768303986 409453231433042 (.node (.node .leaf 409453768500589 409453768500557 .leaf) 409453768634218 409453231763274 .leaf)) 409453768698226 409453231827282 (.node (.node (.node .leaf 409453768765300 409453231894356 .leaf) 409453769024874 409453232153930 .leaf) 409453769090419 409453232219475 (.node (.node .leaf 409453769288048 409453232417104 .leaf) 409453769290338 409453230314050 .leaf))) 413869230026612 413868693155668 (.node (.node (.node (.node .leaf 414934499616098 414934499616066 .leaf) 85957020677533793 85957020677533761 .leaf) 87599428988792678 87599428988792646 (.node (.node .leaf 99484290491114850 99484289954243906 .leaf) 100316633728574818 100316633728574786 .leaf)) 100599135420573026 100599135420572994 (.node (.node (.node .leaf 102284772528122224 102284771991251280 .leaf) 102301179370038626 102301178833167682 .leaf) 102860890683237730 102860890146366786 (.node .leaf 103142383125030242 103142383125030210 .leaf)))) 103422715640373603 103422715640373571 (.node (.node (.node (.node (.node .leaf 104261608434591074 104261608434591042 .leaf) 104543083528742242 104543082991871298 .leaf) 104552979233071459 104552979233071427 (.node (.node .leaf 104820164551663972 104820164551663940 .leaf) 104820164551666785 26833961906099088449 .leaf)) 104820164551731564 104820027112778060 (.node (.node (.node .leaf 104820164551991659 104820029260521803 .leaf) 104820164686933870 104820164686933838 .leaf) 104820164719244652 26833961906266666316 (.node (.node .leaf 104820164786350450 104820027347396946 .leaf) 104820164787595636 104820027348642132 .leaf))) 104820164871286637 104820164871286605 (.node (.node (.node (.node .leaf 104820164871611758 104820027432658254 .leaf) 104820164954254447 104820027515300943 .leaf) 104820164954845044 104820027515891540 (.node (.node .leaf 104827891517515106 104827891517515074 .leaf) 104835553504290146 104835552967419202 .leaf)) 105112712256647265 105112712256647233 (.node (.node (.node .leaf 105124811279264880 105124673840311376 .leaf) 106223184591219056 106223184054348112 .leaf) 21919408014169698401 21919408014169698369 (.node .leaf 25755069639140731248 25755069639140731216 .leaf)))))) 25755357784235599202 6593371592625466139970 (.node (.node (.node (.node (.node (.node (.node .leaf 25755357784235862384 25755357783698991440 .leaf) 25756771691815004528 25756771691278133584 .leaf) 26476215203633785463 26476215203631680087 (.node (.node .leaf 26760784146288567660 26760784145751696716 .leaf) 26766129958987328624 26766129821548375120 .leaf)) 26833962125159653747 26833926940787564883 (.node (.node (.node .leaf 26833962125243607399 26833926940871518535 .leaf) 26833962125360460385 26833926940988371521 .leaf) 26833962125428550773 26833926941056461909 (.node (.node .leaf 26833962125445263214 26833926941073174350 .leaf) 26833962142372815222 26833962142372815190 .leaf))) 26833962142523814512 26833926958151725648 (.node (.node (.node (.node .leaf 26833962155508853862 26833926971136764998 .leaf) 26833962159687103846 26833926975315014982 .leaf) 26833962159821321581 26833926975449232717 (.node (.node .leaf 26833962185272161889 26833927000900073025 .leaf) 26833962185289528692 26833927000917439828 .leaf)) 26833962198224631155 26833962198224631123 (.node (.node (.node .leaf 26833962198224632168 26833927013852543304 .leaf) 26833962207031686259 26833927022659597395 .leaf) 26833962211109790050 6869485225454832214338 (.node (.node .leaf 26837635658218498416 26837635657681627472 .leaf) 27193126424547713389 27193126424547713357 .leaf)))) 5703949516472365376866 5703949516471828505922 (.node (.node (.node (.node (.node .leaf 6518937486806102206827 1668847996586872733067595 .leaf) 6520091831078655388016 6520091831078118517072 .leaf) 6555971443057451229539 1526617979317362978087235 (.node (.node .leaf 6574994647883464339308 6574994612699092250444 .leaf) 6592652405472476293488 6592652405471939422544 .leaf)) 6593878525911401654646 6593878525773962701142 (.node (.node (.node .leaf 6647994326565040316784 6647994326565040316752 .leaf) 6704197843617676812653 6704197843617676812621 .leaf) 6759536405736527783266 6759536405736527783234 (.node (.node .leaf 6759536406810387047778 6759536406810387047746 .leaf) 6777911092130245785656 6777911092130245785656 .leaf))) 6777911092130249405547 1735145239585205081035851 (.node (.node (.node (.node .leaf 6832390006606469754977 1597379695216932345049153 .leaf) 6832604207917057729890 6832604207917057729858 .leaf) 6832605902229948885360 6832605902229412014416 (.node (.node .leaf 6833326460612652590434 6833326460612115719490 .leaf) 6852203312709932249697 6852203277525560160833 .leaf)) 6852203312769944938850 6852203277585572849986 (.node (.node (.node .leaf 6869494304088050393453 6869485296888795652429 .leaf) 6869494304109457334631 1758590527478161285603655 .leaf) 6869494315040081867373 6869485307840825029197 (.node .leaf 6869494316165664698978 6869485308966409957954 .leaf))))) 6869494319459637485927 6869485312260382744903 (.node (.node (.node (.node (.node (.node .leaf 6869494319502888232307 6869485312303633491283 .leaf) 6869494323913786811766 6869485316714532070742 .leaf) 6942996146261712662625 6942987139062457921601 (.node (.node .leaf 1469674541629307491545698 1469674541629307491545666 .leaf) 1687921572800667748626282 432107922636935420107517770 .leaf)) 1688032902630097313621346 1688032902630096776750402 (.node (.node (.node .leaf 1749330785515234758255970 1749330785515234758255970 .leaf) 1754035133370872915846498 449032994142943327609447746 .leaf) 1754107916333695405617008 1754107916298511033528144 (.node (.node .leaf 1758590541835571303702883 1758588235992562090008899 .leaf) 1758590541836644944867188 1758588235993635731173204 .leaf))) 1758590541845424109810533 1758588236002414896116549 (.node (.node (.node (.node .leaf 1758590541845467092902243 1758588236002457879208259 .leaf) 1758590541846523621176691 1758588236003514407482707 .leaf) 1758590541847623166488435 1758590541847623166488403 (.node (.node .leaf 1758590545792687814895981 1758588239949678601201997 .leaf) 1782129312069486268080482 1782129303062287013339458 .leaf)) 427243976598716346885173345 109374458006947225033545576513 (.node (.node (.node .leaf 427300719070591553710813281 109388984079747277980909400129 .leaf) 427300738241570660876053621 109388988989833010443711704149 .leaf) 432107922636970900916957043 110619628195055467504793186131 (.node .leaf 440509011958945538010015074 440509011958945537473144130 .leaf)))) 440509105058468564110173538 440509105058468564110173506 (.node (.node (.node (.node (.node .leaf 440509105058468598300897908 440509105058468598300897876 .leaf) 440546680066498249716887649 112779952455881512091426713665 .leaf) 444145087802907556502398322 29107492474249021555480797472082 (.node (.node .leaf 448971548686126591486748002 114936716463648407281760232770 .leaf) 449037661023395638718784866 114953641221989283373161669954 .leaf)) 450199178711594030000598369 450198588415784242525596993 (.node (.node (.node .leaf 450199179002926085136609134 450198588707115726430957390 .leaf) 450199179145341492895117427 450199179145341492895117395 .leaf) 450199179501975704374763888 450198589206165345669112144 (.node (.node .leaf 450199179501975764319035758 450198589206165405613384014 .leaf) 450199179650025026340675949 450199179650025026340675917 .leaf))) 110626924306978288513959485804 7250046111229740634960347416912204 (.node (.node (.node (.node .leaf 112770297654156386338203463777 28869196198867615880084821340225 .leaf) 113714478421465094384803669346 29110906475892736084132393936194 .leaf) 113714478421465099843724142960 29110906475892736089590777538896 (.node (.node .leaf 113714478421465105324454471010 29110906475892736095072044737858 .leaf) 115250989751103418491196175205 115250838635375966662549336901 .leaf)) 28003581181399575941598306660194 1835242696304050220428604423002681154 (.node (.node (.node .leaf 29423809119267647003133130006883 1928318754440323918729832877838786883 .leaf) 7452392057829136710180227660080492 1907812366804106352294278302853457228 .leaf) 1856011804513806165252461766628111205 121635589618061379421004630965998563914565 (.node .leaf 488399965901890308234163434187574768485 125030391270873913908751309082235873030981 .leaf)))))))

/-- Lookup table for scope pl: encoded normalized key to encoded canon. -/
def T_pl : NTree :=
  (.node (.node (.node (.node (.node .leaf 24343667 22238291 .leaf) 6012629620 6012629588 (.node .leaf 6315861346 5778990402 .leaf)) 1561042516592 1561040411216 (.node (.node .leaf 1578206458981 1440228529221 .leaf) 1578206785388 1440228855628 .leaf)) 1599428783975 409453764235079 (.node (.node (.node .leaf 1599428785772 374131415602764 .leaf) 400688058361196 400688058361164 (.node .leaf 402839586497890 402839586497858 .leaf)) 402899698806627 402762259853123 (.node (.node .leaf 409453768896358 374131420983142 .leaf) 99482117522747238 99482117522747206 .leaf))) 100039530978239842 100039530978239810 (.node (.node (.node (.node .leaf 104257266356156261 104257266356148069 .leaf) 104543156375414114 104543156375414082 (.node .leaf 104552996430701922 104552996430701890 .leaf)) 26833962142506577774 26833962142506577742 (.node (.node .leaf 26833962172387979124 26833962034410049364 .leaf) 26833962198224631155 26833962198224631123 .leaf)) 27269965799217657190 27269965799217657158 (.node (.node (.node .leaf 6703478689363213447028 6703478689363213446996 .leaf) 6777911092130249730408 1735145239585205083466056 (.node .leaf 1758590544929609908839521 1758588239086600695145537 .leaf)) 444197181333848011838877556 113714478421456000315540402004 (.node (.node .leaf 28239386984034226444669337952611 7229283067912165694371707388911939 .leaf) 8417785227999282227551897009344326989929279348 2154953018367816247692610266644656519704883785556 .leaf))))



/-- A payload whose ban flag sits two dict levels down. -/
def c7Deep : List (String × PyVal) :=
  [("summary", .vDict [("metrics", .vDict [("banned", .vBool true)])])]

/-- A payload with an `is_available` boolean and a banned status string. -/
def c7Status : List (String × PyVal) :=
  [("is_available", .vBool true), ("status", .vStr "banned")]

/-- The selection property C6 claims of the reconciler, stated from the
claim's words: the selected competitor is a member; when every
candidate's daily metric is missing it is the first candidate; and when
some candidate has a daily metric, the selected one has a maximal daily
metric and is the first such in input order. -/
def SelectedCompetitor (l : List Cand) (sel : Cand) : Prop :=
  sel ∈ l ∧
  ((∀ x ∈ l, x.daily = none) → l.head? = some sel) ∧
  ((∃ x ∈ l, x.daily ≠ none) →
    sel.daily ≠ none ∧
    (∀ x ∈ l, x.daily ≠ none → keyDaily x ≤ keyDaily sel) ∧
    ∃ l₁ l₂, l = l₁ ++ sel :: l₂ ∧
      ∀ x ∈ l₁, x.daily ≠ none → keyDaily x < keyDaily sel)

/-! ## Dictionary lemmas -/

theorem dictGet_nil {α : Type} (k : String) :
    dictGet ([] : List (String × α)) k = none := rfl

theorem dictGet_cons {α : Type} (k' : String) (v : α) (d : List (String × α))
    (k : String) :
    dictGet ((k', v) :: d) k = if k' == k then some v else dictGet d k := by
  simp only [dictGet, List.find?]
  cases h : (k' == k) <;> simp [h]

theorem dictGet_eq_none {α : Type} {d : List (String × α)} {k : String}
    (h : ∀ p ∈ d, p.1 ≠ k) : dictGet d k = none := by
  induction d with
  | nil => rfl
  | cons p d ih =>
    obtain ⟨k', v⟩ := p
    rw [dictGet_cons]
    have hk : k' ≠ k := h (k', v) (List.mem_cons_self _ _)
    simp only [beq_iff_eq, if_neg hk]
    exact ih (fun q hq => h q (List.mem_cons_of_mem _ hq))

theorem dictGet_append_of_none {α : Type} {d₁ : List (String × α)}
    (d₂ : List (String × α)) {k : String} (h : dictGet d₁ k = none) :
    dictGet (d₁ ++ d₂) k = dictGet d₂ k := by
  induction d₁ with
  | nil => rfl
  | cons p d ih =>
    obtain ⟨k', v⟩ := p
    rw [List.cons_append, dictGet_cons]
    rw [dictGet_cons] at h
    by_cases hk : (k' == k) = true
    · rw [if_pos hk] at h; exact absurd h (by simp)
    · rw [if_neg hk] at h ⊢
      exact ih h

theorem dictGet_mem {α : Type} {d : List (String × α)} {k : String} {v : α}
    (h : dictGet d k = some v) : (k, v) ∈ d := by
  induction d with
  | nil => exact absurd h (by simp [dictGet])
  | cons p d ih =>
    obtain ⟨k', v'⟩ := p
    rw [dictGet_cons] at h
    by_cases hk : (k' == k) = true
    · rw [if_pos hk] at h
      have hv : v' = v := by simpa using h
      have hks : k' = k := by simpa using hk
      subst hv; subst hks
      exact List.mem_cons_self _ _
    · rw [if_neg hk] at h
      exact List.mem_cons_of_mem _ (ih h)

theorem dictGet_append_of_some {α : Type} {d₁ : List (String × α)}
    (d₂ : List (String × α)) {k : String} {v : α} (h : dictGet d₁ k = some v) :
    dictGet (d₁ ++ d₂) k = some v := by
  induction d₁ with
  | nil => exact absurd h (by simp [dictGet])
  | cons p d ih =>
    obtain ⟨k', v'⟩ := p
    rw [List.cons_append, dictGet_cons]
    rw [dictGet_cons] at h
    by_cases hk : (k' == k) = true
    · rw [if_pos hk] at h ⊢; exact h
    · rw [if_neg hk] at h ⊢; exact ih h

theorem dictGet_map_update {α : Type} (d : List (String × α)) (k : String)
    (v : α) :
    dictGet (d.map (fun p => if p.1 == k then (k, v) else p)) k
      = if d.any (fun p => p.1 == k) then some v else none := by
  induction d with
  | nil => rfl
  | cons p d ih =>
    obtain ⟨k', v'⟩ := p
    by_cases hk : k' = k
    · subst hk
      simp [dictGet_cons]
    · have hk2 : ¬(((k', v') : String × α).1 == k) = true := by simpa using hk
      rw [List.map_cons, if_neg hk2, dictGet_cons, if_neg (by simpa using hk),
        List.any_cons]
      have hkf : (k' == k) = false := by simpa using hk
      rw [hkf, Bool.false_or]
      exact ih

theorem dictGet_map_update_other {α : Type} (d : List (String × α))
    {k k' : String} (v : α) (h : k' ≠ k) :
    dictGet (d.map (fun p => if p.1 == k then (k, v) else p)) k'
      = dictGet d k' := by
  induction d with
  | nil => rfl
  | cons p d ih =>
    obtain ⟨k₁, v₁⟩ := p
    by_cases hk : (k₁ == k) = true
    · have hk₁ : k₁ = k := by simpa using hk
      simp only [List.map_cons, if_pos hk]
      rw [dictGet_cons, dictGet_cons]
      subst hk₁
      have hne : (k₁ == k') = false := by
        simp only [beq_eq_false_iff_ne, ne_eq]
        exact fun e => h e.symm
      rw [hne]
      simp only [Bool.false_eq_true, if_false]
      exact ih
    · simp only [List.map_cons, if_neg hk]
      rw [dictGet_cons, dictGet_cons]
      by_cases hk' : (k₁ == k') = true
      · rw [if_pos hk', if_pos hk']
      · rw [if_neg hk', if_neg hk']
        exact ih

theorem dictGet_dictInsert_self {α : Type} (d : List (String × α))
    (k : String) (v : α) : dictGet (dictInsert d k v) k = some v := by
  unfold dictInsert
  split
  · next hany =>
    rw [dictGet_map_update, if_pos hany]
  · next hany =>
    have hnone : dictGet d k = none := by
      apply dictGet_eq_none
      intro p hp hpk
      exact hany (by simp only [List.any_eq_true]; exact ⟨p, hp, by simp [hpk]⟩)
    rw [dictGet_append_of_none _ hnone, dictGet_cons]
    simp

theorem dictGet_dictInsert_other {α : Type} (d : List (String × α))
    {k k' : String} (v : α) (h : k' ≠ k) :
    dictGet (dictInsert d k v) k' = dictGet d k' := by
  unfold dictInsert
  split
  · exact dictGet_map_update_other d v h
  · cases hd : dictGet d k' with
    | some v₀ => exact dictGet_append_of_some _ hd
    | none =>
      rw [dictGet_append_of_none _ hd, dictGet_cons]
      have hne : (k == k') = false := by
        simp only [beq_eq_false_iff_ne, ne_eq]
        exact fun e => h e.symm
      rw [hne]
      simp [dictGet]

/-- Folding dict assignments: a key written consistently (all writes of
this key carry the same value, and the key is written at least once or
already present) reads back that value. -/
theorem foldl_insert_lookup {α : Type} (ws : List (String × α))
    (init : List (String × α)) (k : String) (c : α)
    (hmem : (k, c) ∈ ws ∨ dictGet init k = some c)
    (hcons : ∀ p ∈ ws, p.1 = k → p.2 = c) :
    dictGet (ws.foldl (fun d p => dictInsert d p.1 p.2) init) k = some c := by
  induction ws generalizing init with
  | nil =>
    rcases hmem with h | h
    · exact absurd h (List.not_mem_nil _)
    · simpa using h
  | cons p ws ih =>
    obtain ⟨k₁, v₁⟩ := p
    simp only [List.foldl_cons]
    apply ih
    · by_cases hk : k₁ = k
      · right
        subst hk
        rw [dictGet_dictInsert_self]
        have : v₁ = c := hcons (k₁, v₁) (List.mem_cons_self _ _) rfl
        rw [this]
      · rcases hmem with h | h
        · rcases List.mem_cons.mp h with h | h
          · exact absurd (congrArg Prod.fst h).symm hk
          · exact Or.inl h
        · right
          rw [dictGet_dictInsert_other _ _ (fun e => hk e.symm)]
          exact h
    · exact fun q hq => hcons q (List.mem_cons_of_mem _ hq)

/-- Folding dict assignments: a key never written and absent initially
reads back nothing. -/
theorem foldl_insert_lookup_none {α : Type} (ws : List (String × α))
    (init : List (String × α)) (k : String)
    (hinit : dictGet init k = none)
    (h : ∀ p ∈ ws, p.1 ≠ k) :
    dictGet (ws.foldl (fun d p => dictInsert d p.1 p.2) init) k = none := by
  induction ws generalizing init with
  | nil => simpa using hinit
  | cons p ws ih =>
    obtain ⟨k₁, v₁⟩ := p
    simp only [List.foldl_cons]
    apply ih
    · rw [dictGet_dictInsert_other _ _ (fun e => h (k₁, v₁) (List.mem_cons_self _ _) e.symm)]
      exact hinit
    · exact fun q hq => h q (List.mem_cons_of_mem _ hq)

/-! ## Injectivity of the numeric encoding -/

theorem chN_pos (l : List Char) : 1 ≤ chN l := by
  cases l with
  | nil => simp [chN]
  | cons c cs =>
    simp only [chN]
    have := chN_pos cs
    omega

theorem chN_inj : ∀ (l₁ l₂ : List Char), (∀ c ∈ l₁, c.toNat < 256) →
    (∀ c ∈ l₂, c.toNat < 256) → chN l₁ = chN l₂ → l₁ = l₂
  | [], [], _, _, _ => rfl
  | [], c :: cs, _, h₂, he => by
    exfalso
    simp only [chN] at he
    have h1 := chN_pos cs
    have h2 := h₂ c (List.mem_cons_self _ _)
    omega
  | c :: cs, [], h₁, _, he => by
    exfalso
    simp only [chN] at he
    have h1 := chN_pos cs
    have h2 := h₁ c (List.mem_cons_self _ _)
    omega
  | c :: cs, d :: ds, h₁, h₂, he => by
    simp only [chN] at he
    have hc := h₁ c (List.mem_cons_self _ _)
    have hd := h₂ d (List.mem_cons_self _ _)
    have htail : chN cs = chN ds := by omega
    have hchar : c.toNat = d.toNat := by omega
    have hcd : c = d := by
      apply Char.ext
      have : c.val.toNat = d.val.toNat := hchar
      exact UInt32.toNat.inj this
    rw [hcd, chN_inj cs ds (fun x hx => h₁ x (List.mem_cons_of_mem _ hx))
      (fun x hx => h₂ x (List.mem_cons_of_mem _ hx)) htail]

/-- Strings whose characters are below 256 are determined by their
encoding. -/
theorem idN_inj {s t : String} (hs : bytesOk s = true) (ht : bytesOk t = true)
    (h : idN s = idN t) : s = t := by
  have hs2 : ∀ c ∈ s.data, c.toNat < 256 := by
    intro c hc
    have := (List.all_eq_true.mp hs) c hc
    simpa using this
  have ht2 : ∀ c ∈ t.data, c.toNat < 256 := by
    intro c hc
    have := (List.all_eq_true.mp ht) c hc
    simpa using this
  have hd := chN_inj s.data t.data hs2 ht2 h
  cases s; cases t
  exact congrArg String.mk hd


/-! ## Normalization lemmas -/

theorem toNat_ofNat_lt {n : Nat} (h : n < 55296) : (Char.ofNat n).toNat = n := by
  unfold Char.ofNat
  rw [dif_pos (Or.inl h)]
  rfl

theorem pyLowerChar_idem (c : Char) : pyLowerChar (pyLowerChar c) = pyLowerChar c := by
  unfold pyLowerChar
  by_cases h : 65 ≤ c.toNat ∧ c.toNat ≤ 90
  · rw [if_pos h]
    have ht : (Char.ofNat (c.toNat + 32)).toNat = c.toNat + 32 :=
      toNat_ofNat_lt (by omega)
    rw [if_neg (by omega)]
  · rw [if_neg h, if_neg h]

theorem pyLowerChar_alnum {c : Char} (h : isAlnumLower c = true) :
    pyLowerChar c = c := by
  unfold isAlnumLower at h
  unfold pyLowerChar
  rw [if_neg]
  simp only [decide_eq_true_eq, Bool.or_eq_true] at h
  omega

theorem stripDiacritic_alnum {c : Char} (h : isAlnumLower c = true) :
    stripDiacritic c = c := by
  unfold isAlnumLower at h
  unfold stripDiacritic
  simp only [decide_eq_true_eq, Bool.or_eq_true] at h
  rw [if_pos (by omega)]

theorem normChars_append (l₁ l₂ : List Char) :
    normChars (l₁ ++ l₂) = normChars l₁ ++ normChars l₂ := by
  simp [normChars]

theorem normChars_reverse (l : List Char) :
    normChars l.reverse = (normChars l).reverse := by
  simp [normChars, List.map_reverse, List.filter_reverse]

theorem normChars_alnum {c : Char} {l : List Char} (h : c ∈ normChars l) :
    isAlnumLower c = true := by
  unfold normChars at h
  exact List.of_mem_filter h

theorem normChars_idem (l : List Char) : normChars (normChars l) = normChars l := by
  have h1 : (normChars l).map pyLowerChar = normChars l := by
    rw [List.map_congr_left (fun c hc => pyLowerChar_alnum (normChars_alnum hc))]
    exact List.map_id _
  have h2 : (normChars l).map stripDiacritic = normChars l := by
    rw [List.map_congr_left (fun c hc => stripDiacritic_alnum (normChars_alnum hc))]
    exact List.map_id _
  show ((((normChars l).map pyLowerChar).map stripDiacritic).filter isAlnumLower)
      = normChars l
  rw [h1, h2]
  exact List.filter_eq_self.mpr (fun c hc => normChars_alnum hc)

theorem normChars_map_pyLower (l : List Char) :
    normChars (l.map pyLowerChar) = normChars l := by
  have heq : List.map pyLowerChar (List.map pyLowerChar l) = List.map pyLowerChar l := by
    rw [List.map_map]
    exact List.map_congr_left (fun c _ => pyLowerChar_idem c)
  show List.filter isAlnumLower (List.map stripDiacritic
    (List.map pyLowerChar (List.map pyLowerChar l))) = normChars l
  rw [heq]
  rfl

theorem normalize_pyLower (s : String) :
    normalize_text (pyLower s) = normalize_text s := by
  unfold normalize_text pyLower
  exact congrArg String.mk (normChars_map_pyLower s.data)

theorem normalize_idem (s : String) :
    normalize_text (normalize_text s) = normalize_text s := by
  unfold normalize_text
  exact congrArg String.mk (normChars_idem s.data)

theorem ws_char_dropped {c : Char} (h : isPyWhitespace c = true) :
    isAlnumLower (stripDiacritic (pyLowerChar c)) = false := by
  unfold isPyWhitespace at h
  simp only [Bool.or_eq_true, beq_iff_eq, decide_eq_true_eq] at h
  have hlow : pyLowerChar c = c := by
    unfold pyLowerChar; rw [if_neg (by omega)]
  have hstrip : stripDiacritic c = c := by
    unfold stripDiacritic
    rw [if_pos (by omega)]
  rw [hlow, hstrip]
  unfold isAlnumLower
  simp only [decide_eq_false_iff_not]
  omega

theorem normChars_ws_nil {l : List Char}
    (h : ∀ c ∈ l, isPyWhitespace c = true) : normChars l = [] := by
  unfold normChars
  rw [List.filter_eq_nil_iff]
  intro c hc
  simp only [List.mem_map] at hc
  obtain ⟨c₁, hc₁, hmap⟩ := hc
  obtain ⟨c₀, hc₀, hmap₀⟩ := hc₁
  subst hmap₀
  subst hmap
  simp [ws_char_dropped (h c₀ hc₀)]

theorem normChars_dropWhile_ws (l : List Char) :
    normChars (l.dropWhile isPyWhitespace) = normChars l := by
  conv_rhs => rw [← List.takeWhile_append_dropWhile (p := isPyWhitespace) (l := l)]
  rw [normChars_append,
    normChars_ws_nil (fun c hc => List.mem_takeWhile_imp hc), List.nil_append]

theorem normalize_pyStrip (s : String) :
    normalize_text (pyStrip s) = normalize_text s := by
  unfold normalize_text pyStrip
  apply congrArg String.mk
  show normChars (((s.data.dropWhile isPyWhitespace).reverse.dropWhile
    isPyWhitespace).reverse) = normChars s.data
  rw [normChars_reverse, normChars_dropWhile_ws, normChars_reverse,
    List.reverse_reverse, normChars_dropWhile_ws]

theorem dropWhile_head_false {p : Char → Bool} {l : List Char}
    (h : l.dropWhile p ≠ []) :
    ∃ c cs, l.dropWhile p = c :: cs ∧ p c = false := by
  induction l with
  | nil => simp at h
  | cons a l ih =>
    rw [List.dropWhile_cons] at h ⊢
    by_cases hp : p a = true
    · rw [if_pos hp] at h ⊢
      exact ih h
    · rw [if_neg hp] at h ⊢
      exact ⟨a, l, rfl, by simpa using hp⟩

theorem dropWhile_eq_self_of_head {p : Char → Bool} {c : Char} {cs : List Char}
    (h : p c = false) : (c :: cs).dropWhile p = c :: cs := by
  rw [List.dropWhile_cons, h]
  exact if_neg (by simp)

theorem getLast?_dropWhile {p : Char → Bool} {l : List Char}
    (h : l.dropWhile p ≠ []) : (l.dropWhile p).getLast? = l.getLast? := by
  obtain ⟨pre, hpre⟩ := List.dropWhile_suffix (l := l) (p := p)
  conv_rhs => rw [← hpre]
  exact (List.getLast?_append_of_ne_nil _ h).symm

/-- The output of `pyStrip` is already stripped. -/
theorem pyStrip_idem (s : String) : pyStrip (pyStrip s) = pyStrip s := by
  unfold pyStrip
  apply congrArg String.mk
  generalize s.data = l
  by_cases hE : (l.dropWhile isPyWhitespace).reverse.dropWhile isPyWhitespace = []
  · rw [hE]
    rfl
  · obtain ⟨b, bs, hEcons, hpb⟩ := dropWhile_head_false hE
    have hD : l.dropWhile isPyWhitespace ≠ [] := by
      intro h0
      apply hE
      rw [h0]
      rfl
    obtain ⟨a, as, hDcons, hpa⟩ := dropWhile_head_false hD
    have hhead : (((l.dropWhile isPyWhitespace).reverse.dropWhile
        isPyWhitespace).reverse).head? = some a := by
      rw [List.head?_reverse, getLast?_dropWhile hE, List.getLast?_reverse,
        hDcons]
      rfl
    have hrevne : (((l.dropWhile isPyWhitespace).reverse.dropWhile
        isPyWhitespace).reverse) ≠ [] := by simpa using hE
    obtain ⟨c, cs, hccons⟩ := List.exists_cons_of_ne_nil hrevne
    have hca : c = a := by
      rw [hccons] at hhead
      simpa using hhead
    have step1 : (((l.dropWhile isPyWhitespace).reverse.dropWhile
        isPyWhitespace).reverse).dropWhile isPyWhitespace
        = ((l.dropWhile isPyWhitespace).reverse.dropWhile isPyWhitespace).reverse := by
      rw [hccons]
      exact dropWhile_eq_self_of_head (hca ▸ hpa)
    rw [step1, List.reverse_reverse, hEcons, dropWhile_eq_self_of_head hpb]


/-! ## Lemmas about `uniq` -/

theorem uniqStep_shape (acc : List String × List String) (x : String) :
    uniqStep acc x = acc ∨
      (pyStrip x ≠ "" ∧
        uniqStep acc x = (acc.1 ++ [pyStrip x], acc.2 ++ [pyLower (pyStrip x)])) := by
  unfold uniqStep
  by_cases hk : pyStrip x = ""
  · rw [if_pos hk]; exact Or.inl rfl
  · rw [if_neg hk]
    by_cases hseen : pyLower (pyStrip x) ∈ acc.2
    · rw [if_pos hseen]; exact Or.inl rfl
    · rw [if_neg hseen]; exact Or.inr ⟨hk, rfl⟩

theorem uniq_foldl_prefix (l : List String) (acc : List String × List String) :
    ∃ t₁ t₂, l.foldl uniqStep acc = (acc.1 ++ t₁, acc.2 ++ t₂) := by
  induction l generalizing acc with
  | nil => exact ⟨[], [], by simp⟩
  | cons a l ih =>
    rw [List.foldl_cons]
    rcases uniqStep_shape acc a with h | ⟨_, h⟩
    · rw [h]; exact ih acc
    · rw [h]
      obtain ⟨t₁, t₂, ht⟩ := ih (acc.1 ++ [pyStrip a], acc.2 ++ [pyLower (pyStrip a)])
      exact ⟨[pyStrip a] ++ t₁, [pyLower (pyStrip a)] ++ t₂, by
        rw [ht]; simp⟩

theorem uniq_foldl_mem_src (l : List String) (acc : List String × List String)
    (c : String) (h : c ∈ (l.foldl uniqStep acc).1) :
    c ∈ acc.1 ∨ ∃ x ∈ l, c = pyStrip x ∧ pyStrip x ≠ "" := by
  induction l generalizing acc with
  | nil => exact Or.inl (by simpa using h)
  | cons a l ih =>
    rw [List.foldl_cons] at h
    rcases ih (uniqStep acc a) h with hacc | ⟨x, hx, hc⟩
    · rcases uniqStep_shape acc a with hs | ⟨hne, hs⟩
      · rw [hs] at hacc; exact Or.inl hacc
      · rw [hs] at hacc
        rcases List.mem_append.mp hacc with h1 | h2
        · exact Or.inl h1
        · right
          exact ⟨a, List.mem_cons_self _ _, by simpa using h2, hne⟩
    · exact Or.inr ⟨x, List.mem_cons_of_mem _ hx, hc⟩

theorem uniq_mem_src {l : List String} {c : String} (h : c ∈ uniq l) :
    ∃ x ∈ l, c = pyStrip x ∧ c ≠ "" := by
  rcases uniq_foldl_mem_src l ([], []) c h with h0 | ⟨x, hx, hc, hne⟩
  · exact absurd h0 (List.not_mem_nil _)
  · exact ⟨x, hx, hc, hc ▸ hne⟩

/-- Every member of a `uniq` output is a fixed point of `pyStrip`. -/
theorem uniq_mem_strip {l : List String} {c : String} (h : c ∈ uniq l) :
    pyStrip c = c := by
  obtain ⟨x, _, hc, _⟩ := uniq_mem_src h
  rw [hc, pyStrip_idem]

theorem uniq_foldl_seen (l : List String) (acc : List String × List String)
    (hseen : acc.2 = acc.1.map pyLower) :
    (l.foldl uniqStep acc).2 = (l.foldl uniqStep acc).1.map pyLower := by
  induction l generalizing acc with
  | nil => simpa using hseen
  | cons a l ih =>
    rw [List.foldl_cons]
    apply ih
    rcases uniqStep_shape acc a with hs | ⟨_, hs⟩
    · rw [hs]; exact hseen
    · rw [hs]
      simp [hseen]

theorem uniq_foldl_nodup (l : List String) (acc : List String × List String)
    (hseen : acc.2 = acc.1.map pyLower)
    (hnd : (acc.1.map pyLower).Nodup) :
    ((l.foldl uniqStep acc).1.map pyLower).Nodup := by
  induction l generalizing acc with
  | nil => simpa using hnd
  | cons a l ih =>
    rw [List.foldl_cons]
    by_cases hk : pyStrip a = ""
    · have hs : uniqStep acc a = acc := by unfold uniqStep; rw [if_pos hk]
      rw [hs]; exact ih acc hseen hnd
    · by_cases hmem : pyLower (pyStrip a) ∈ acc.2
      · have hs : uniqStep acc a = acc := by
          unfold uniqStep; rw [if_neg hk, if_pos hmem]
        rw [hs]; exact ih acc hseen hnd
      · have hs : uniqStep acc a
            = (acc.1 ++ [pyStrip a], acc.2 ++ [pyLower (pyStrip a)]) := by
          unfold uniqStep; rw [if_neg hk, if_neg hmem]
        rw [hs]
        apply ih
        · simp [hseen]
        · simp only [List.map_append, List.map_cons, List.map_nil]
          rw [List.nodup_append]
          refine ⟨hnd, List.nodup_singleton _, ?_⟩
          intro y hy hy2
          have : y = pyLower (pyStrip a) := by simpa using hy2
          subst this
          exact hmem (hseen ▸ hy)

/-- The output of `uniq` has no duplicates. -/
theorem uniq_nodup (l : List String) : (uniq l).Nodup := by
  have := uniq_foldl_nodup l ([], []) rfl (by simp)
  exact List.Nodup.of_map _ this

/-- When the first entry survives stripping, it is the head of the `uniq`
output. -/
theorem uniq_cons_head {x : String} (l : List String) (h : pyStrip x ≠ "") :
    ∃ t, uniq (x :: l) = pyStrip x :: t := by
  unfold uniq
  rw [List.foldl_cons]
  have hs : uniqStep ([], []) x = ([pyStrip x], [pyLower (pyStrip x)]) := by
    unfold uniqStep
    rw [if_neg h, if_neg (List.not_mem_nil _)]
    rfl
  rw [hs]
  obtain ⟨t₁, t₂, ht⟩ := uniq_foldl_prefix l ([pyStrip x], [pyLower (pyStrip x)])
  exact ⟨t₁, by rw [ht]; rfl⟩

theorem uniq_cons_mem {x : String} (l : List String) (h : pyStrip x ≠ "") :
    pyStrip x ∈ uniq (x :: l) := by
  obtain ⟨t, ht⟩ := uniq_cons_head l h
  rw [ht]
  exact List.mem_cons_self _ _


/-! ## Structure of the variants map and reverse index -/

theorem dictInsert_fresh {α : Type} (d : List (String × α)) (k : String) (v : α)
    (h : ∀ p ∈ d, p.1 ≠ k) : dictInsert d k v = d ++ [(k, v)] := by
  unfold dictInsert
  rw [if_neg]
  intro hany
  simp only [List.any_eq_true] at hany
  obtain ⟨p, hp, hpk⟩ := hany
  exact h p hp (by simpa using hpk)

theorem build_variants_foldl (l : List String)
    (extras : List (String × List String)) (acc : List (String × List String))
    (hdisj : ∀ c ∈ l, ∀ p ∈ acc, p.1 ≠ c) (hnd : l.Nodup) :
    l.foldl (fun out c =>
        dictInsert out c (uniq (_base_variants c ++ ((dictGet extras c).getD []))))
      acc
      = acc ++ l.map (fun c =>
          (c, uniq (_base_variants c ++ ((dictGet extras c).getD [])))) := by
  induction l generalizing acc with
  | nil => simp
  | cons a l ih =>
    rw [List.foldl_cons, List.map_cons]
    have hfresh : dictInsert acc a (uniq (_base_variants a ++ ((dictGet extras a).getD [])))
        = acc ++ [(a, uniq (_base_variants a ++ ((dictGet extras a).getD [])))] :=
      dictInsert_fresh _ _ _ (fun p hp => hdisj a (List.mem_cons_self _ _) p hp)
    rw [hfresh]
    rw [ih]
    · simp
    · intro c hc p hp
      rcases List.mem_append.mp hp with h1 | h2
      · exact hdisj c (List.mem_cons_of_mem _ hc) p h1
      · have hpa : p = (a, uniq (_base_variants a ++ ((dictGet extras a).getD []))) := by
          simpa using h2
        rw [hpa]
        intro he
        apply (List.nodup_cons.mp hnd).1
        have ha : a = c := he
        rw [ha]
        exact hc
    · exact (List.nodup_cons.mp hnd).2

theorem build_variants_eq_map (canons : List String)
    (extras : List (String × List String)) (hnd : canons.Nodup) :
    _build_variants_map canons extras
      = canons.map (fun c =>
          (c, uniq (_base_variants c ++ ((dictGet extras c).getD [])))) := by
  unfold _build_variants_map
  rw [build_variants_foldl canons extras [] (by simp) hnd]
  simp

theorem make_reverse_eq_foldl (vm : List (String × List String)) :
    _make_reverse_index vm
      = (vm.flatMap (fun cv => cv.2.map (fun v => (normalize_text v, cv.1)))).foldl
          (fun rev p => dictInsert rev p.1 p.2) [] := by
  unfold _make_reverse_index
  suffices h : ∀ init : List (String × String),
      vm.foldl (fun rev cv =>
        cv.2.foldl (fun rev v => dictInsert rev (normalize_text v) cv.1) rev) init
      = (vm.flatMap (fun cv => cv.2.map (fun v => (normalize_text v, cv.1)))).foldl
          (fun rev p => dictInsert rev p.1 p.2) init by
    exact h []
  induction vm with
  | nil => intro init; simp
  | cons cv vm ih =>
    intro init
    rw [List.foldl_cons, List.flatMap_cons, List.foldl_append, ih]
    congr 1
    rw [List.foldl_map]

/-- A canon that is a nonempty stripped string is among its own variant
list. -/
theorem canon_mem_variants (c : String) (ex : List String)
    (hstrip : pyStrip c = c) (hne : c ≠ "") :
    c ∈ uniq (_base_variants c ++ ex) := by
  have hbase : ∃ rest, _base_variants c = uniq (c :: rest) := by
    unfold _base_variants
    dsimp only
    by_cases hg : normalize_text c ≠ "" ∧ normalize_text c ≠ pyLower c
    · rw [if_pos hg]
      exact ⟨[pyLower c, normalize_text c], rfl⟩
    · rw [if_neg hg]
      exact ⟨[pyLower c], rfl⟩
  obtain ⟨rest, hrest⟩ := hbase
  have hne2 : pyStrip c ≠ "" := by rw [hstrip]; exact hne
  obtain ⟨t, ht⟩ := uniq_cons_head rest hne2
  rw [hrest, ht, hstrip, List.cons_append]
  have := uniq_cons_mem (t ++ ex) hne2
  rw [hstrip] at this
  exact this

/-- Normalization of any member of a base-variant list agrees with the
canon. -/
theorem base_variant_norm {c v : String} (hv : v ∈ _base_variants c) :
    normalize_text v = normalize_text c := by
  unfold _base_variants at hv
  dsimp only at hv
  by_cases hg : normalize_text c ≠ "" ∧ normalize_text c ≠ pyLower c
  · rw [if_pos hg] at hv
    obtain ⟨y, hy, hveq, _⟩ := uniq_mem_src hv
    simp only [List.mem_append, List.mem_cons, List.mem_singleton,
      List.not_mem_nil, or_false] at hy
    rw [hveq, normalize_pyStrip]
    rcases hy with (hy | hy) | hy
    · subst hy; rfl
    · subst hy; exact normalize_pyLower c
    · subst hy; exact normalize_idem c
  · rw [if_neg hg] at hv
    obtain ⟨y, hy, hveq, _⟩ := uniq_mem_src hv
    simp only [List.mem_cons, List.mem_singleton, List.not_mem_nil,
      or_false] at hy
    rw [hveq, normalize_pyStrip]
    rcases hy with hy | hy
    · subst hy; rfl
    · subst hy; exact normalize_pyLower c

/-- Unpacking of a successful `canonSelf` check. -/
theorem canonSelf_spec {T : NTree} {c : String} (h : canonSelf T c = true) :
    bytesOk c = true ∧ bstFind T (keyN c) = some (idN c) := by
  unfold canonSelf at h
  rw [Bool.and_eq_true] at h
  exact ⟨h.1, by simpa using h.2⟩

/-- Every canon of the catalog passes the table self check. -/
theorem canonSelf_of_mem {raw : List String} {T : NTree} {c : String}
    (hcheck : raw.all (fun x => canonSelf T (pyStrip x)) = true)
    (hc : c ∈ uniq raw) : canonSelf T c = true := by
  obtain ⟨x, hx, hcx, _⟩ := uniq_mem_src hc
  have := List.all_eq_true.mp hcheck x hx
  rw [← hcx] at this
  exact this

/-- Two canons of a checked catalog with equal normalizations are equal:
both look themselves up in the same table slot. -/
theorem canon_norm_inj {raw : List String} {T : NTree} {c₁ c₂ : String}
    (hcheck : raw.all (fun x => canonSelf T (pyStrip x)) = true)
    (h₁ : c₁ ∈ uniq raw) (h₂ : c₂ ∈ uniq raw)
    (heq : normalize_text c₁ = normalize_text c₂) : c₁ = c₂ := by
  obtain ⟨hb₁, hf₁⟩ := canonSelf_spec (canonSelf_of_mem hcheck h₁)
  obtain ⟨hb₂, hf₂⟩ := canonSelf_spec (canonSelf_of_mem hcheck h₂)
  have hk : keyN c₁ = keyN c₂ := by unfold keyN; rw [heq]
  rw [hk, hf₂] at hf₁
  have hid : idN c₂ = idN c₁ := by simpa using hf₁
  exact idN_inj hb₁ hb₂ hid.symm

/-- Hit lemma for a checked scope: looking up any surface form whose
normalization agrees with a canon returns exactly that canon. -/
theorem rev_lookup_hit (raw : List String)
    (extras : List (String × List String)) (T : NTree)
    (hcheck : raw.all (fun x => canonSelf T (pyStrip x)) = true)
    (hex : extras.all (fun ec => ec.2.all (fun x =>
        match bstFind T (keyN x) with
        | none => true
        | some v => v == idN ec.1)) = true)
    {c q : String} (hc : c ∈ uniq raw)
    (hq : normalize_text q = normalize_text c) :
    dictGet (_make_reverse_index (_build_variants_map (uniq raw) extras))
      (normalize_text q) = some c := by
  rw [make_reverse_eq_foldl, build_variants_eq_map _ _ (uniq_nodup raw), hq]
  apply foldl_insert_lookup
  · left
    rw [List.mem_flatMap]
    refine ⟨(c, uniq (_base_variants c ++ ((dictGet extras c).getD []))), ?_, ?_⟩
    · exact List.mem_map_of_mem _ hc
    · rw [List.mem_map]
      refine ⟨c, ?_, rfl⟩
      exact canon_mem_variants c _ (uniq_mem_strip hc)
        (uniq_mem_src hc).choose_spec.2.2
  · intro p hp hpk
    rw [List.mem_flatMap] at hp
    obtain ⟨cv, hcv, hpcv⟩ := hp
    rw [List.mem_map] at hcv
    obtain ⟨c₂, hc₂, hcveq⟩ := hcv
    subst hcveq
    rw [List.mem_map] at hpcv
    obtain ⟨v, hv, hveq⟩ := hpcv
    subst hveq
    have hpk2 : normalize_text v = normalize_text c := hpk
    show c₂ = c
    obtain ⟨x, hx, hvx, _⟩ := uniq_mem_src hv
    rcases List.mem_append.mp hx with hxb | hxe
    · -- a base variant: its key is the canon key
      have hnv : normalize_text v = normalize_text c₂ := by
        rw [hvx, normalize_pyStrip]
        exact base_variant_norm hxb
      rw [hnv] at hpk2
      exact canon_norm_inj hcheck hc₂ hc hpk2
    · -- a curated extra: check it against the table
      cases hdx : dictGet extras c₂ with
      | none => rw [hdx] at hxe; exact absurd hxe (List.not_mem_nil _)
      | some exl =>
        rw [hdx] at hxe
        simp only [Option.getD_some] at hxe
        have hmem : (c₂, exl) ∈ extras := dictGet_mem hdx
        have hexl := List.all_eq_true.mp (List.all_eq_true.mp hex (c₂, exl) hmem) x hxe
        obtain ⟨hbc, hfc⟩ := canonSelf_spec (canonSelf_of_mem hcheck hc)
        have hkx : keyN x = keyN c := by
          unfold keyN
          rw [← normalize_pyStrip x, ← hvx, hpk2]
        rw [hkx, hfc] at hexl
        have hvc : idN c = idN c₂ := by simpa using hexl
        obtain ⟨hbc₂, _⟩ := canonSelf_spec (canonSelf_of_mem hcheck hc₂)
        exact idN_inj hbc₂ hbc (hvc.symm)

/-- Miss lemma for a checked scope: a key found neither in the table nor
among the curated extras reads back nothing. -/
theorem rev_lookup_none (raw : List String)
    (extras : List (String × List String)) (T : NTree)
    (hcheck : raw.all (fun x => canonSelf T (pyStrip x)) = true)
    {q : String} (hmiss : bstFind T (keyN q) = none)
    (hexmiss : extras.all (fun ec => ec.2.all (fun x =>
        keyN x != keyN q)) = true) :
    dictGet (_make_reverse_index (_build_variants_map (uniq raw) extras))
      (normalize_text q) = none := by
  rw [make_reverse_eq_foldl, build_variants_eq_map _ _ (uniq_nodup raw)]
  refine foldl_insert_lookup_none _ _ _ ?_ ?_
  · rfl
  intro p hp hpk
  rw [List.mem_flatMap] at hp
  obtain ⟨cv, hcv, hpcv⟩ := hp
  rw [List.mem_map] at hcv
  obtain ⟨c₂, hc₂, hcveq⟩ := hcv
  subst hcveq
  rw [List.mem_map] at hpcv
  obtain ⟨v, hv, hveq⟩ := hpcv
  subst hveq
  have hpk2 : normalize_text v = normalize_text q := hpk
  obtain ⟨x, hx, hvx, _⟩ := uniq_mem_src hv
  rcases List.mem_append.mp hx with hxb | hxe
  · have hnv : normalize_text v = normalize_text c₂ := by
      rw [hvx, normalize_pyStrip]
      exact base_variant_norm hxb
    rw [hnv] at hpk2
    obtain ⟨_, hfc⟩ := canonSelf_spec (canonSelf_of_mem hcheck hc₂)
    have : keyN c₂ = keyN q := by unfold keyN; rw [hpk2]
    rw [this, hmiss] at hfc
    exact absurd hfc (by simp)
  · cases hdx : dictGet extras c₂ with
    | none => rw [hdx] at hxe; exact absurd hxe (List.not_mem_nil _)
    | some exl =>
      rw [hdx] at hxe
      simp only [Option.getD_some] at hxe
      have hmem : (c₂, exl) ∈ extras := dictGet_mem hdx
      have hexl := List.all_eq_true.mp (List.all_eq_true.mp hexmiss (c₂, exl) hmem) x hxe
      have hkx : keyN x = keyN q := by
        unfold keyN
        rw [← normalize_pyStrip x, ← hvx, hpk2]
      rw [hkx] at hexl
      simp at hexl


/-! ## Per-scope catalog facts -/

set_option maxRecDepth 40000 in
theorem rawCheck_ar : rawCanon_ar.all (fun x => canonSelf T_ar (pyStrip x)) = true := by rfl

set_option maxRecDepth 40000 in
theorem rawCheck_br : rawCanon_br.all (fun x => canonSelf T_br (pyStrip x)) = true := by rfl

set_option maxRecDepth 40000 in
theorem rawCheck_pl : rawCanon_pl.all (fun x => canonSelf T_pl (pyStrip x)) = true := by rfl

set_option maxRecDepth 40000 in
theorem extrasCheck_br : extraAliases_br.all (fun ec => ec.2.all (fun x =>
    match bstFind T_br (keyN x) with
    | none => true
    | some v => v == idN ec.1)) = true := by rfl

set_option maxRecDepth 40000 in
theorem extrasCheck_pl : extraAliases_pl.all (fun ec => ec.2.all (fun x =>
    match bstFind T_pl (keyN x) with
    | none => true
    | some v => v == idN ec.1)) = true := by rfl

set_option maxRecDepth 40000 in
theorem canonical_list_ar : canonical_list "ar" = .ok (uniq rawCanon_ar) := rfl

set_option maxRecDepth 40000 in
theorem canonical_list_br : canonical_list "br" = .ok (uniq rawCanon_br) := rfl

set_option maxRecDepth 40000 in
theorem canonical_list_pl : canonical_list "pl" = .ok (uniq rawCanon_pl) := rfl

set_option maxRecDepth 40000 in
theorem canonicalize_eq_ar (q : String) : canonicalize "ar" q
    = .ok (dictGet (_make_reverse_index (_build_variants_map (uniq rawCanon_ar) []))
        (normalize_text q)) := rfl

set_option maxRecDepth 40000 in
theorem canonicalize_eq_br (q : String) : canonicalize "br" q
    = .ok (dictGet (_make_reverse_index
        (_build_variants_map (uniq rawCanon_br) extraAliases_br))
        (normalize_text q)) := rfl

set_option maxRecDepth 40000 in
theorem canonicalize_eq_pl (q : String) : canonicalize "pl" q
    = .ok (dictGet (_make_reverse_index
        (_build_variants_map (uniq rawCanon_pl) extraAliases_pl))
        (normalize_text q)) := rfl

theorem canonicalize_ar_hit {c q : String} (hc : c ∈ uniq rawCanon_ar)
    (hq : normalize_text q = normalize_text c) :
    canonicalize "ar" q = .ok (some c) := by
  rw [canonicalize_eq_ar]
  exact congrArg Except.ok (rev_lookup_hit rawCanon_ar [] T_ar rawCheck_ar rfl hc hq)

theorem canonicalize_br_hit {c q : String} (hc : c ∈ uniq rawCanon_br)
    (hq : normalize_text q = normalize_text c) :
    canonicalize "br" q = .ok (some c) := by
  rw [canonicalize_eq_br]
  exact congrArg Except.ok
    (rev_lookup_hit rawCanon_br extraAliases_br T_br rawCheck_br extrasCheck_br hc hq)

theorem canonicalize_pl_hit {c q : String} (hc : c ∈ uniq rawCanon_pl)
    (hq : normalize_text q = normalize_text c) :
    canonicalize "pl" q = .ok (some c) := by
  rw [canonicalize_eq_pl]
  exact congrArg Except.ok
    (rev_lookup_hit rawCanon_pl extraAliases_pl T_pl rawCheck_pl extrasCheck_pl hc hq)

theorem canonicalize_ar_miss {q : String} (hmiss : bstFind T_ar (keyN q) = none) :
    canonicalize "ar" q = .ok none := by
  rw [canonicalize_eq_ar]
  exact congrArg Except.ok (rev_lookup_none rawCanon_ar [] T_ar rawCheck_ar hmiss rfl)

set_option maxRecDepth 40000 in
theorem get_supported_eval : get_supported_countries = ["ar", "br", "pl"] := rfl


/-- Membership of the second entry in a `uniq` output. -/
theorem uniq_mem_two (a b : String) (l : List String)
    (hb : pyStrip b ≠ "")
    (hab : pyLower (pyStrip b) ≠ pyLower (pyStrip a)) :
    pyStrip b ∈ uniq (a :: b :: l) := by
  unfold uniq
  rw [List.foldl_cons, List.foldl_cons]
  have hstep : uniqStep (uniqStep ([], []) a) b
      = ((uniqStep ([], []) a).1 ++ [pyStrip b],
         (uniqStep ([], []) a).2 ++ [pyLower (pyStrip b)]) := by
    rcases uniqStep_shape ([], []) a with hs | ⟨_, hs⟩
    · rw [hs]
      unfold uniqStep
      rw [if_neg hb, if_neg (List.not_mem_nil _)]
    · rw [hs]
      unfold uniqStep
      rw [if_neg hb, if_neg]
      intro hmem
      simp only [List.nil_append, List.mem_singleton] at hmem
      exact hab hmem
  rw [hstep]
  obtain ⟨t₁, t₂, ht⟩ := uniq_foldl_prefix l
    ((uniqStep ([], []) a).1 ++ [pyStrip b],
     (uniqStep ([], []) a).2 ++ [pyLower (pyStrip b)])
  rw [ht]
  simp

/-! ## Claim theorems for the catalog (C8, C10) -/

/-- C8: for every supported scope, every canonical entity of that scope,
and every surface string equal to that entity's exact text, its
lower-cased text, or its normalized glued form, `canonicalize` returns
that entity. -/
theorem C8_catalog_roundtrip (code : String)
    (hcode : code ∈ get_supported_countries)
    (cl : List String) (hcl : canonical_list code = .ok cl)
    (c : String) (hc : c ∈ cl) (s : String)
    (hs : s = c ∨ s = pyLower c ∨ s = normalize_text c) :
    canonicalize code s = .ok (some c) := by
  have hq : normalize_text s = normalize_text c := by
    rcases hs with h | h | h
    · rw [h]
    · rw [h, normalize_pyLower]
    · rw [h, normalize_idem]
  rw [get_supported_eval] at hcode
  simp only [List.mem_cons, List.mem_singleton, List.not_mem_nil,
    or_false] at hcode
  rcases hcode with h | h | h
  · subst h
    rw [canonical_list_ar] at hcl
    injection hcl with h'
    subst h'
    exact canonicalize_ar_hit hc hq
  · subst h
    rw [canonical_list_br] at hcl
    injection hcl with h'
    subst h'
    exact canonicalize_br_hit hc hq
  · subst h
    rw [canonical_list_pl] at hcl
    injection hcl with h'
    subst h'
    exact canonicalize_pl_hit hc hq

/-- Witness for C8 at a concrete instance: the lower-cased surface form
of the first "pl" canon round-trips to the canon. -/
theorem C8_catalog_roundtrip_witness :
    canonicalize "pl" "superbet" = .ok (some "Superbet") := by
  have hne : pyStrip "Superbet" ≠ "" := by
    rw [show pyStrip "Superbet" = "Superbet" from rfl]
    intro h
    exact absurd h (by decide)
  have hmem : "Superbet" ∈ uniq rawCanon_pl := by
    have h := uniq_cons_mem (x := "Superbet") rawCanon_pl.tail hne
    rw [show pyStrip "Superbet" = "Superbet" from rfl] at h
    exact h
  have hpl : "pl" ∈ get_supported_countries := by
    rw [get_supported_eval]
    exact .tail _ (.tail _ (.head _))
  exact C8_catalog_roundtrip "pl" hpl
    (uniq rawCanon_pl) canonical_list_pl "Superbet" hmem "superbet"
    (Or.inr (Or.inl rfl))

/-- C10: canonicalization factors through text normalization — two
surface strings with the same normalized key canonicalize identically in
every supported scope. -/
theorem C10_canonicalize_factors (code s t : String)
    (hcode : code ∈ get_supported_countries)
    (h : normalize_text s = normalize_text t) :
    canonicalize code s = canonicalize code t := by
  unfold canonicalize
  rw [h]

/-- Witness for C10 at a concrete instance: a hyphenated and a
case-folded variant of the same brand canonicalize identically. -/
theorem C10_canonicalize_factors_witness :
    canonicalize "ar" "Bet-365" = canonicalize "ar" "bet365" := by
  have har : "ar" ∈ get_supported_countries := by
    rw [get_supported_eval]
    exact .head _
  exact C10_canonicalize_factors "ar" "Bet-365" "bet365" har rfl


/-! ## Error messages for unknown scopes (C9) -/

theorem listPrefix_self_append (l r : List Char) : listPrefix l (l ++ r) = true := by
  induction l with
  | nil => rfl
  | cons c cs ih =>
    show (c == c && listPrefix cs (cs ++ r)) = true
    rw [ih]
    simp

theorem hasSubAux_parts (pre pat post : List Char) :
    hasSubAux pat (pre ++ (pat ++ post)) = true := by
  induction pre with
  | nil =>
    cases hp : pat ++ post with
    | nil =>
      simp only [List.nil_append, hp, hasSubAux]
      rcases List.append_eq_nil.mp hp with ⟨h1, _⟩
      subst h1
      rfl
    | cons c cs =>
      simp only [List.nil_append, hp, hasSubAux]
      rw [← hp, listPrefix_self_append]
      rfl
  | cons c cs ih =>
    show (listPrefix pat (c :: (cs ++ (pat ++ post)))
      || hasSubAux pat (cs ++ (pat ++ post))) = true
    rw [ih, Bool.or_true]

/-- A string contains any explicitly decomposable substring. -/
theorem strContains_parts (a pat b : String) :
    strContains (a ++ pat ++ b) pat = true := by
  unfold strContains
  rw [String.data_append, String.data_append, List.append_assoc]
  exact hasSubAux_parts a.data pat.data b.data

/-- Data-level version of the containment lemma. -/
theorem strContains_data_parts (s pat : String) (pre post : List Char)
    (h : s.data = pre ++ (pat.data ++ post)) : strContains s pat = true := by
  unfold strContains
  rw [h]
  exact hasSubAux_parts pre pat.data post

/-- The supported-country listing evaluates to the literal id list. -/
theorem supported_join : String.intercalate ", " get_supported_countries = "ar, br, pl" := rfl

/-- C9 as the code actually behaves (amended): every catalog operation
rejects an unknown scope id with an error naming the lowercased id;
`get_country_config` additionally lists every valid scope id, while the
messages of `canonical_list`, `variants_map` and `canonicalize` omit the
valid list (witnessed concretely for the id "xx" below in the
counterexample theorem). -/
theorem C9_unknown_scope_errors (code : String)
    (hnot : pyLower code ∉ (["ar", "br", "pl"] : List String)) :
    (canonical_list code = .error ("Unknown country code: " ++ pyLower code)
      ∧ strContains ("Unknown country code: " ++ pyLower code) (pyLower code) = true)
    ∧ (variants_map code
        = .error ("Unknown country code for brands: " ++ pyLower code)
      ∧ strContains ("Unknown country code for brands: " ++ pyLower code)
          (pyLower code) = true)
    ∧ (∀ s : String, canonicalize code s
        = .error ("Unknown country code for brands: " ++ pyLower code))
    ∧ (get_country_config code
        = .error ("Unknown country code: " ++ pyLower code ++ ". Supported: "
            ++ String.intercalate ", " get_supported_countries)
      ∧ strContains ("Unknown country code: " ++ pyLower code ++ ". Supported: "
            ++ String.intercalate ", " get_supported_countries) (pyLower code) = true
      ∧ ∀ v ∈ get_supported_countries,
          strContains ("Unknown country code: " ++ pyLower code ++ ". Supported: "
            ++ String.intercalate ", " get_supported_countries) v = true) := by
  have hcanon : dictGet CANON_BY_COUNTRY (pyLower code) = none := by
    apply dictGet_eq_none
    intro p hp
    simp only [CANON_BY_COUNTRY, List.mem_cons, List.mem_singleton,
      List.not_mem_nil, or_false] at hp
    rcases hp with h | h | h <;> subst h <;>
      (intro he; apply hnot; rw [← he]; simp)
  have hcountry : dictGet COUNTRIES (pyLower code) = none := by
    apply dictGet_eq_none
    intro p hp
    simp only [COUNTRIES, List.mem_cons, List.mem_singleton,
      List.not_mem_nil, or_false] at hp
    rcases hp with h | h | h <;> subst h <;>
      (intro he; apply hnot; rw [← he]; simp)
  have hvme : variants_map code
      = .error ("Unknown country code for brands: " ++ pyLower code) := by
    show (match dictGet CANON_BY_COUNTRY (pyLower code) with
      | none => Except.error ("Unknown country code for brands: " ++ pyLower code)
      | some canon => Except.ok (_build_variants_map canon
          ((dictGet EXTRA_ALIASES_BY_COUNTRY (pyLower code)).getD [])))
      = Except.error ("Unknown country code for brands: " ++ pyLower code)
    rw [hcanon]
  refine ⟨⟨?_, ?_⟩, ⟨?_, ?_⟩, ?_, ?_, ?_, ?_⟩
  · show (match dictGet CANON_BY_COUNTRY (pyLower code) with
      | some l => Except.ok l
      | none => Except.error ("Unknown country code: " ++ pyLower code))
      = Except.error ("Unknown country code: " ++ pyLower code)
    rw [hcanon]
  · have := strContains_parts "Unknown country code: " (pyLower code) ""
    simpa using this
  · exact hvme
  · have := strContains_parts "Unknown country code for brands: " (pyLower code) ""
    simpa using this
  · intro q
    unfold canonicalize _reverse_index
    rw [hvme]
    rfl
  · show (match dictGet COUNTRIES (pyLower code) with
      | some cfg => Except.ok cfg
      | none => Except.error ("Unknown country code: " ++ pyLower code
          ++ ". Supported: " ++ String.intercalate ", " get_supported_countries))
      = Except.error ("Unknown country code: " ++ pyLower code ++ ". Supported: "
          ++ String.intercalate ", " get_supported_countries)
    rw [hcountry]
  · have := strContains_parts "Unknown country code: " (pyLower code)
      (". Supported: " ++ String.intercalate ", " get_supported_countries)
    rw [← String.append_assoc] at this
    exact this
  · intro v hv
    rw [get_supported_eval] at hv
    simp only [List.mem_cons, List.mem_singleton, List.not_mem_nil,
      or_false] at hv
    rcases hv with h | h | h <;> subst h
    · apply strContains_data_parts _ _
        ("Unknown country code: ".data ++ ((pyLower code).data ++ ". Supported: ".data))
        ", br, pl".data
      rw [supported_join]
      simp only [String.data_append]
      simp [List.append_assoc]
    · apply strContains_data_parts _ _
        ("Unknown country code: ".data ++ ((pyLower code).data
          ++ (". Supported: ".data ++ "ar, ".data)))
        ", pl".data
      rw [supported_join]
      simp only [String.data_append]
      simp [List.append_assoc]
    · apply strContains_data_parts _ _
        ("Unknown country code: ".data ++ ((pyLower code).data
          ++ (". Supported: ".data ++ "ar, br, ".data)))
        []
      rw [supported_join]
      simp only [String.data_append]
      simp [List.append_assoc]

/-- Witness for C9 at the concrete unknown id "xx". -/
theorem C9_unknown_scope_errors_witness :
    canonical_list "xx" = .error ("Unknown country code: " ++ pyLower "xx")
      ∧ get_country_config "xx"
        = .error ("Unknown country code: " ++ pyLower "xx" ++ ". Supported: "
            ++ String.intercalate ", " get_supported_countries) := by
  have h := C9_unknown_scope_errors "xx" (by decide)
  exact ⟨h.1.1, h.2.2.2.1⟩

/-- Counterexample to C9 as stated: `canonical_list` on the unknown id
"xx" raises a message that does not list the valid scope ids (it does not
even mention "ar"). -/
theorem C9_counterexample :
    canonical_list "xx" = .error "Unknown country code: xx"
      ∧ strContains "Unknown country code: xx" "ar" = false := by
  constructor
  · rfl
  · rfl


/-! ## C1: the token matcher at the spec's examples -/

/-- C1 (evaluation of the code at the claim's inputs): the matcher
rejects "LV BET" against "LV BET Casino" — the tokenizer drops the
two-character token "lv", leaving the single three-character token
"bet", which trips the short-single-token guard — contradicting both the
claim and the function's own docstring; the other two examples behave as
claimed. -/
theorem C1_token_matcher_eval :
    any_brand_in_title "LV BET" ["LV BET Casino"] = false
    ∧ any_brand_in_title "PIN" ["Pinnacle Sports"] = false
    ∧ any_brand_in_title "bet365" ["Bet365 App"] = true :=
  ⟨rfl, rfl, rfl⟩

/-! ## Aggregation lemmas (C2, C3, C4) -/

theorem pyOrZeroInt_id (v : Int) : pyOrZeroInt v = v := by
  unfold pyOrZeroInt
  split
  · omega
  · rfl

theorem pyOrZero_none : pyOrZero none = 0 := rfl

theorem pyOrZero_eq_getD (o : Option Int) : pyOrZero o = o.getD 0 := by
  unfold pyOrZero
  cases o with
  | none => rfl
  | some v =>
    simp only [Option.getD_some]
    split <;> omega

theorem mem_dictInsert {α : Type} {d : List (String × α)} {k : String}
    {v : α} {p : String × α} (h : p ∈ dictInsert d k v) :
    p = (k, v) ∨ p ∈ d := by
  unfold dictInsert at h
  split at h
  · rw [List.mem_map] at h
    obtain ⟨q, hq, hmap⟩ := h
    by_cases hk : (q.1 == k) = true
    · rw [if_pos hk] at hmap
      exact Or.inl hmap.symm
    · rw [if_neg hk] at hmap
      exact Or.inr (hmap ▸ hq)
  · rcases List.mem_append.mp h with h1 | h2
    · exact Or.inr h1
    · exact Or.inl (by simpa using h2)

/-- Membership facts for the "ar" canon used by the aggregation
examples. -/
theorem mem_bet365_ar : "Bet365" ∈ uniq rawCanon_ar := by
  have hb : pyStrip "Bet365" ≠ "" := by
    rw [show pyStrip "Bet365" = "Bet365" from rfl]
    intro h
    exact absurd h (by decide)
  have hab : pyLower (pyStrip "Bet365") ≠ pyLower (pyStrip "Betano") := by
    rw [show pyLower (pyStrip "Bet365") = "bet365" from rfl,
      show pyLower (pyStrip "Betano") = "betano" from rfl]
    decide
  have h := uniq_mem_two "Betano" "Bet365" (rawCanon_ar.tail.tail) hb hab
  rw [show pyStrip "Bet365" = "Bet365" from rfl] at h
  exact h

theorem canonicalize_ar_bet365 :
    canonicalize "ar" "Bet365" = .ok (some "Bet365") :=
  canonicalize_ar_hit mem_bet365_ar rfl

theorem canonicalize_ar_bet365_low :
    canonicalize "ar" "bet365" = .ok (some "Bet365") :=
  canonicalize_ar_hit mem_bet365_ar rfl

theorem canonicalize_ar_unknownbrand :
    canonicalize "ar" "unknownbrand" = .ok none :=
  canonicalize_ar_miss rfl


/-- Evaluation of the aggregation fold on the spec's three-observation
example in scope "ar". -/
theorem aggFold_example :
    aggFold
      [⟨"Bet365", "ar", some "es", some 100, none, none, none⟩,
       ⟨"bet365", "ar", some "es", some 250, none, none, none⟩,
       ⟨"unknownbrand", "ar", some "es", some 999, none, none, none⟩] "ar"
    = .ok [("Bet365", ⟨"Bet365", "ar", some "es", 250, none, none, none⟩)] := by
  unfold aggFold
  simp only [List.foldlM_cons, List.foldlM_nil, canonicalize_ar_bet365,
    canonicalize_ar_bet365_low, canonicalize_ar_unknownbrand]
  rfl

/-- Reduction of one aggregation step when the entity is unmatched. -/
theorem aggStep_none (code : String) (st : List (String × AggRec)) (r : Row) :
    aggStep code st r none = st := rfl

/-- Reduction of one aggregation step on a fresh entity. -/
theorem aggStep_new (code : String) (st : List (String × AggRec)) (r : Row)
    (c : String) (hrec : dictGet st c = none) :
    aggStep code st r (some c) = st ++ [(c,
      { keyword := c, country := code, language := r.language,
        search_volume := pyOrZero r.search_volume, cpc := r.cpc,
        competition := r.competition, trend := r.trend })] := by
  unfold aggStep
  dsimp only
  rw [hrec]

/-- Reduction of one aggregation step on an entity with an incumbent. -/
theorem aggStep_found (code : String) (st : List (String × AggRec)) (r : Row)
    (c : String) (rec : AggRec) (hrec : dictGet st c = some rec) :
    aggStep code st r (some c) =
      if pyOrZeroInt (pyOrZero r.search_volume) > pyOrZeroInt rec.search_volume then
        dictInsert st c
          { rec with
            search_volume := pyOrZero r.search_volume
            cpc := r.cpc
            competition := r.competition
            trend := r.trend }
      else st := by
  unfold aggStep
  dsimp only
  rw [hrec]

/-- Appending one more observation runs one more aggregation step. -/
theorem aggFold_append (code : String) (rows : List Row) (r : Row)
    (st : List (String × AggRec)) (cr : Option String)
    (hst : aggFold rows code = .ok st)
    (hc : canonicalize code r.keyword = .ok cr) :
    aggFold (rows ++ [r]) code = .ok (aggStep code st r cr) := by
  unfold aggFold at hst ⊢
  rw [List.foldlM_append, hst]
  simp only [List.foldlM_cons, List.foldlM_nil, hc]
  rfl

/-- C2: the aggregator keeps one running-best record per canonical
entity, replacing the incumbent only on a strictly greater primary
metric — appending an observation whose metric does not exceed the
incumbent leaves the output unchanged, and a strictly greater one
replaces the incumbent's metric bundle — and the spec's example yields
the single "Bet365" record with metric 250. -/
theorem C2_aggregator_max (code : String) (rows : List Row) (r : Row)
    (st : List (String × AggRec)) (c : String) (rec : AggRec)
    (hst : aggFold rows code = .ok st)
    (hc : canonicalize code r.keyword = .ok (some c))
    (hrec : dictGet st c = some rec) :
    ((pyOrZero r.search_volume ≤ rec.search_volume →
        aggregate_to_canonical (rows ++ [r]) code
          = aggregate_to_canonical rows code)
     ∧ (pyOrZero r.search_volume > rec.search_volume →
        aggFold (rows ++ [r]) code = .ok (dictInsert st c
          { rec with
            search_volume := pyOrZero r.search_volume
            cpc := r.cpc
            competition := r.competition
            trend := r.trend })))
    ∧ aggregate_to_canonical
        [⟨"Bet365", "ar", some "es", some 100, none, none, none⟩,
         ⟨"bet365", "ar", some "es", some 250, none, none, none⟩,
         ⟨"unknownbrand", "ar", some "es", some 999, none, none, none⟩] "ar"
      = .ok [⟨"Bet365", "ar", some "es", 250, none, none, none⟩] := by
  have happ := aggFold_append code rows r st (some c) hst hc
  refine ⟨⟨?_, ?_⟩, ?_⟩
  · intro hle
    have hstep : aggStep code st r (some c) = st := by
      rw [aggStep_found code st r c rec hrec, if_neg]
      rw [pyOrZeroInt_id, pyOrZeroInt_id]
      omega
    unfold aggregate_to_canonical
    rw [happ, hstep, hst]
  · intro hgt
    have hstep : aggStep code st r (some c) = dictInsert st c
        { rec with
          search_volume := pyOrZero r.search_volume
          cpc := r.cpc
          competition := r.competition
          trend := r.trend } := by
      rw [aggStep_found code st r c rec hrec, if_pos]
      rw [pyOrZeroInt_id, pyOrZeroInt_id]
      omega
    rw [happ, hstep]
  · unfold aggregate_to_canonical
    rw [aggFold_example]
    rfl

/-- Witness for C2: a tie (metric 100 against incumbent 100) keeps the
incumbent record. -/
theorem C2_aggregator_max_witness :
    aggregate_to_canonical
      [⟨"Bet365", "ar", some "es", some 100, none, none, none⟩,
       ⟨"bet365", "ar", some "es", some 100, some 7, none, none⟩] "ar"
    = aggregate_to_canonical
        [⟨"Bet365", "ar", some "es", some 100, none, none, none⟩] "ar" := by
  have hst : aggFold [⟨"Bet365", "ar", some "es", some 100, none, none, none⟩] "ar"
      = .ok [("Bet365", ⟨"Bet365", "ar", some "es", 100, none, none, none⟩)] := by
    unfold aggFold
    simp only [List.foldlM_cons, List.foldlM_nil, canonicalize_ar_bet365]
    rfl
  have h := (C2_aggregator_max "ar"
    [⟨"Bet365", "ar", some "es", some 100, none, none, none⟩]
    ⟨"bet365", "ar", some "es", some 100, some 7, none, none⟩
    [("Bet365", ⟨"Bet365", "ar", some "es", 100, none, none, none⟩)]
    "Bet365" ⟨"Bet365", "ar", some "es", 100, none, none, none⟩
    hst canonicalize_ar_bet365_low rfl).1.1
  exact h (by rw [show pyOrZero (some 100) = 100 from rfl])


/-! ## Provenance of aggregated records (C3, C4) -/

theorem RecOK_mono {code : String} {S S2 : Row → Prop}
    (hS : ∀ x, S x → S2 x) {p : String × AggRec} (h : RecOK code S p) :
    RecOK code S2 p := by
  obtain ⟨h1, h2, f, w, hf, hw, rest⟩ := h
  exact ⟨h1, h2, f, w, hS f hf, hS w hw, rest⟩

theorem aggFold_prop (code : String) (rows : List Row)
    (S : Row → Prop) :
    ∀ (st₀ st : List (String × AggRec)),
    (rows.foldlM (fun agg r => do
        let c ← canonicalize code r.keyword
        pure (aggStep code agg r c)) st₀) = .ok st →
    (∀ x ∈ rows, S x) →
    (∀ p ∈ st₀, RecOK code S p) →
    ∀ p ∈ st, RecOK code S p := by
  induction rows with
  | nil =>
    intro st₀ st h _ hp
    simp only [List.foldlM_nil] at h
    have h' : (Except.ok st₀ : Except String (List (String × AggRec))) = .ok st := h
    injection h' with h''
    subst h''
    exact hp
  | cons r rows ih =>
    intro st₀ st h hS hp
    simp only [List.foldlM_cons] at h
    cases hc : canonicalize code r.keyword with
    | error e =>
      rw [hc] at h
      exact absurd h (by simp [Bind.bind, Except.bind])
    | ok cr =>
      rw [hc] at h
      have h2 : rows.foldlM (fun agg r => do
          let c ← canonicalize code r.keyword
          pure (aggStep code agg r c)) (aggStep code st₀ r cr) = .ok st := h
      apply ih (aggStep code st₀ r cr) st h2
        (fun x hx => hS x (List.mem_cons_of_mem _ hx))
      intro p hpmem
      cases cr with
      | none =>
        rw [aggStep_none] at hpmem
        exact hp p hpmem
      | some c =>
        cases hd : dictGet st₀ c with
        | none =>
          rw [aggStep_new code st₀ r c hd] at hpmem
          rcases List.mem_append.mp hpmem with hold | hnew
          · exact hp p hold
          · have hpeq : p = (c,
                { keyword := c, country := code, language := r.language,
                  search_volume := pyOrZero r.search_volume, cpc := r.cpc,
                  competition := r.competition, trend := r.trend }) := by
              simpa using hnew
            subst hpeq
            exact ⟨rfl, rfl, r, r, hS r (List.mem_cons_self _ _),
              hS r (List.mem_cons_self _ _), hc, hc, rfl, rfl, rfl, rfl, rfl⟩
        | some rec =>
          rw [aggStep_found code st₀ r c rec hd] at hpmem
          by_cases hcmp : pyOrZeroInt (pyOrZero r.search_volume)
              > pyOrZeroInt rec.search_volume
          · rw [if_pos hcmp] at hpmem
            rcases mem_dictInsert hpmem with hpeq | hold
            · subst hpeq
              have hrecOK := hp (c, rec) (dictGet_mem hd)
              obtain ⟨h1, h2, f, w, hf, hw, hcf, hcw, hlang, _⟩ := hrecOK
              refine ⟨h1, h2, f, r, hf, hS r (List.mem_cons_self _ _),
                hcf, hc, hlang, rfl, rfl, rfl, rfl⟩
            · exact hp p hold
          · rw [if_neg hcmp] at hpmem
            exact hp p hpmem

/-- C3 amended: no emitted record draws its fields from more than two
observations — the language field comes from one contributing
observation, and the primary metric together with all remaining side
fields (cpc, competition, trend) comes from a single contributing
observation; keyword and country are the canon and the scope. -/
theorem C3_record_provenance (rows : List Row) (code : String)
    (res : List AggRec) (h : aggregate_to_canonical rows code = .ok res) :
    ∀ rec ∈ res, rec.country = code ∧
      ∃ f w, f ∈ rows ∧ w ∈ rows
        ∧ canonicalize code f.keyword = .ok (some rec.keyword)
        ∧ canonicalize code w.keyword = .ok (some rec.keyword)
        ∧ rec.language = f.language
        ∧ rec.search_volume = pyOrZero w.search_volume
        ∧ rec.cpc = w.cpc
        ∧ rec.competition = w.competition
        ∧ rec.trend = w.trend := by
  unfold aggregate_to_canonical at h
  cases hf : aggFold rows code with
  | error e => rw [hf] at h; exact absurd h (by simp [Except.map])
  | ok st =>
    rw [hf] at h
    have h' : (Except.ok (st.map (fun p => p.2)) : Except String (List AggRec))
        = .ok res := h
    injection h' with h''
    subst h''
    intro rec hrec
    rw [List.mem_map] at hrec
    obtain ⟨p, hpmem, hpeq⟩ := hrec
    have hOK := aggFold_prop code rows (fun x => x ∈ rows) [] st hf
      (fun x hx => hx) (by simp) p hpmem
    obtain ⟨h1, h2, f, w, hfm, hwm, hcf, hcw, hlang, hsv, hcpc, hcomp, htrend⟩ := hOK
    subst hpeq
    rw [h1]
    exact ⟨h2, f, w, hfm, hwm, hcf, hcw, hlang, hsv, hcpc, hcomp, htrend⟩

/-- Witness for C3 (amended) at the two-observation example,
instantiated at the single emitted record. -/
theorem C3_record_provenance_witness :
    (⟨"Bet365", "ar", some "es", 250, some 2, none, none⟩ : AggRec).country = "ar" ∧
    ∃ f w,
      f ∈ [(⟨"Bet365", "ar", some "es", some 100, some 1, none, none⟩ : Row),
           ⟨"bet365", "ar", some "pt", some 250, some 2, none, none⟩] ∧
      w ∈ [(⟨"Bet365", "ar", some "es", some 100, some 1, none, none⟩ : Row),
           ⟨"bet365", "ar", some "pt", some 250, some 2, none, none⟩] ∧
      canonicalize "ar" f.keyword = .ok
        (some (⟨"Bet365", "ar", some "es", 250, some 2, none, none⟩ : AggRec).keyword) ∧
      canonicalize "ar" w.keyword = .ok
        (some (⟨"Bet365", "ar", some "es", 250, some 2, none, none⟩ : AggRec).keyword) ∧
      (⟨"Bet365", "ar", some "es", 250, some 2, none, none⟩ : AggRec).language
        = f.language ∧
      (⟨"Bet365", "ar", some "es", 250, some 2, none, none⟩ : AggRec).search_volume
        = pyOrZero w.search_volume ∧
      (⟨"Bet365", "ar", some "es", 250, some 2, none, none⟩ : AggRec).cpc = w.cpc ∧
      (⟨"Bet365", "ar", some "es", 250, some 2, none, none⟩ : AggRec).competition
        = w.competition ∧
      (⟨"Bet365", "ar", some "es", 250, some 2, none, none⟩ : AggRec).trend
        = w.trend := by
  refine C3_record_provenance
    [⟨"Bet365", "ar", some "es", some 100, some 1, none, none⟩,
     ⟨"bet365", "ar", some "pt", some 250, some 2, none, none⟩] "ar"
    [⟨"Bet365", "ar", some "es", 250, some 2, none, none⟩] ?_
    ⟨"Bet365", "ar", some "es", 250, some 2, none, none⟩ (by simp)
  unfold aggregate_to_canonical aggFold
  simp only [List.foldlM_cons, List.foldlM_nil, canonicalize_ar_bet365,
    canonicalize_ar_bet365_low]
  rfl

/-- Counterexample to C3 as stated: with two observations of the same
entity in different languages, the winning record keeps the first
observation's language next to the second observation's metric fields —
its (language, cpc) pair matches no single input observation. -/
theorem C3_counterexample :
    aggregate_to_canonical
      [⟨"Bet365", "ar", some "es", some 100, some 1, none, none⟩,
       ⟨"bet365", "ar", some "pt", some 250, some 2, none, none⟩] "ar"
    = .ok [⟨"Bet365", "ar", some "es", 250, some 2, none, none⟩]
    ∧ ∀ r ∈ [(⟨"Bet365", "ar", some "es", some 100, some 1, none, none⟩ : Row),
             ⟨"bet365", "ar", some "pt", some 250, some 2, none, none⟩],
        ¬ ((some "es" : Option String) = r.language ∧ (some 2 : Option Int) = r.cpc) := by
  constructor
  · unfold aggregate_to_canonical aggFold
    simp only [List.foldlM_cons, List.foldlM_nil, canonicalize_ar_bet365,
      canonicalize_ar_bet365_low]
    rfl
  · decide

/-- C4 amended: an absent primary metric behaves exactly like the
literal 0 throughout the aggregation step — both in the comparison
against the incumbent and in the materialized record. -/
theorem C4_missing_metric_is_zero (code : String)
    (st : List (String × AggRec)) (r : Row) (cr : Option String)
    (h : r.search_volume = none) :
    aggStep code st r cr
      = aggStep code st { r with search_volume := some 0 } cr := by
  unfold aggStep
  cases cr with
  | none => rfl
  | some c =>
    dsimp only
    rw [h]
    rfl

/-- Witness for C4 (amended) at a concrete metric-less observation. -/
theorem C4_missing_metric_is_zero_witness :
    aggStep "ar" [] ⟨"Bet365", "ar", some "es", none, none, none, none⟩
      (some "Bet365")
    = aggStep "ar" []
        ⟨"Bet365", "ar", some "es", some 0, none, none, none⟩
        (some "Bet365") :=
  C4_missing_metric_is_zero "ar" []
    ⟨"Bet365", "ar", some "es", none, none, none, none⟩ (some "Bet365") rfl

/-- Counterexample to C4 as stated: an entity whose only observation has
no primary metric ends up with the literal number 0 as its primary
metric in the emitted record. -/
theorem C4_counterexample :
    aggregate_to_canonical
      [⟨"Bet365", "ar", some "es", none, none, none, none⟩] "ar"
    = .ok [⟨"Bet365", "ar", some "es", 0, none, none, none⟩] := by
  unfold aggregate_to_canonical aggFold
  simp only [List.foldlM_cons, List.foldlM_nil, canonicalize_ar_bet365]
  rfl


/-! ### C7: availability/ban strategy order -/

theorem fieldsDepth_pos (l : List (String × PyVal)) : 0 < fieldsDepth l := by
  cases l with
  | nil => rw [fieldsDepth]; omega
  | cons p rest => rw [fieldsDepth]; omega

theorem pyDepth_lt_fieldsDepth {l : List (String × PyVal)} {k : String} {v : PyVal}
    (h : (k, v) ∈ l) : pyDepth v < fieldsDepth l := by
  induction l with
  | nil => cases h
  | cons p rest ih =>
    obtain ⟨k', v'⟩ := p
    rw [List.mem_cons] at h
    rw [fieldsDepth]
    rcases h with h | h
    · injection h with h1 h2
      subst h2
      omega
    · have := ih h
      omega

theorem fieldsDepth_sub_lt {data fs : List (String × PyVal)} {k : String}
    (h : dictGet data k = some (.vDict fs)) : fieldsDepth fs < fieldsDepth data := by
  have hm := dictGet_mem h
  have := pyDepth_lt_fieldsDepth hm
  rw [pyDepth] at this
  omega

theorem scanNested_congr' (f g : List (String × PyVal) → Option Bool)
    (data : List (String × PyVal))
    (hfg : ∀ k fs, dictGet data k = some (.vDict fs) → f fs = g fs) :
    ∀ (keys : List String) (acc : Option Bool),
      keys.foldl
        (fun acc top =>
          match acc with
          | some v => some v
          | none =>
            match dictGet data top with
            | some (.vDict fs) => f fs
            | _ => none)
        acc
      = keys.foldl
        (fun acc top =>
          match acc with
          | some v => some v
          | none =>
            match dictGet data top with
            | some (.vDict fs) => g fs
            | _ => none)
        acc
  | [], acc => rfl
  | k :: rest, acc => by
    rw [List.foldl_cons, List.foldl_cons]
    have hstep :
        (match acc with
          | some v => some v
          | none =>
            match dictGet data k with
            | some (.vDict fs) => f fs
            | _ => none)
        = (match acc with
          | some v => some v
          | none =>
            match dictGet data k with
            | some (.vDict fs) => g fs
            | _ => none) := by
      cases acc with
      | some v => rfl
      | none =>
        cases hk : dictGet data k with
        | none => rfl
        | some v =>
          cases v with
          | vDict fs => exact hfg k fs hk
          | vNull => rfl
          | vBool b => rfl
          | vNum n => rfl
          | vStr s => rfl
    rw [hstep]
    exact scanNested_congr' f g data hfg rest _

theorem scanNested_congr (f g : List (String × PyVal) → Option Bool)
    (data : List (String × PyVal))
    (hfg : ∀ k fs, dictGet data k = some (.vDict fs) → f fs = g fs)
    (keys : List String) :
    scanNested f data keys = scanNested g data keys :=
  scanNested_congr' f g data hfg keys none

theorem resolveOrdered_single (o : Option Bool) : resolveOrdered [o] = o := by
  cases o <;> rfl

/-- Any fuel at least the payload depth computes the same flag, so the
seed chosen in `_extract_banned_flag` is immaterial: the zero-fuel
branch is never reached. -/
theorem banGo_fuel_irrel : ∀ (fuel₁ fuel₂ : Nat) (data : List (String × PyVal)),
    fieldsDepth data ≤ fuel₁ → fuel₁ ≤ fuel₂ →
    banGo fuel₁ data = banGo fuel₂ data
  | 0, _, data, h1, _ => by
    have := fieldsDepth_pos data
    omega
  | fuel₁ + 1, 0, data, h1, h2 => by omega
  | fuel₁ + 1, fuel₂ + 1, data, h1, h2 => by
    rw [banGo, banGo]
    by_cases hb : firstBoolTrue data BAN_BOOL_KEYS
    · simp [hb]
    · simp only [hb, if_false]
      cases hi : firstInvertedBool data PUB_KEYS with
      | some b => rfl
      | none =>
        by_cases hs : statusHasBanWord data
        · simp [hs]
        · simp only [hs, if_false]
          rw [scanNested_congr (banGo fuel₁) (banGo fuel₂) data
            (fun k fs hk => by
              have hd := fieldsDepth_sub_lt hk
              exact banGo_fuel_irrel fuel₁ fuel₂ fs (by omega) (by omega)) NESTED_KEYS]

theorem banGo_eq_amendedGo : ∀ (fuel : Nat) (data : List (String × PyVal)),
    banGo fuel data = amendedGo fuel data
  | 0, _ => rfl
  | fuel + 1, data => by
    rw [banGo, amendedGo]
    by_cases h1 : firstBoolTrue data BAN_BOOL_KEYS
    · simp [h1, directBanStrategy, resolveOrdered]
    · simp only [h1, if_false, directBanStrategy, resolveOrdered]
      cases h2 : firstInvertedBool data PUB_KEYS with
      | some b => simp [resolveOrdered]
      | none =>
        simp only [resolveOrdered]
        by_cases h3 : statusHasBanWord data
        · simp [h3, statusStrategy, resolveOrdered]
        · simp only [h3, if_false, statusStrategy, resolveOrdered]
          rw [scanNested_congr (banGo fuel) (amendedGo fuel) data
            (fun k fs _ => banGo_eq_amendedGo fuel fs) NESTED_KEYS]
          cases h4 : scanNested (amendedGo fuel) data NESTED_KEYS with
          | some b => simp [resolveOrdered]
          | none => simp [resolveOrdered, resolveOrdered_single]

/-- C7 counterexample: on a payload whose ban flag sits two levels down
(`summary -> metrics -> banned: True`) the code finds the flag (its
recursive search is unbounded, not one level), while the claimed
strategy order, even granting the claim one full level of recursive
search, reports unknown; and on a payload with `is_available: True` and
`status: "banned"` the code reports banned via the status vocabulary,
while the claimed order decides available from the inverted
`is_available` boolean first, because it groups all published/available
booleans ahead of the status check whereas the code checks
`is_published`/`is_available` only after the status vocabulary and the
recursive search. -/
theorem C7_counterexample :
    _extract_banned_flag c7Deep = some true ∧
    claimedBanFlag 2 c7Deep = none ∧
    _extract_banned_flag c7Status = some true ∧
    claimedBanFlag 2 c7Status = some false :=
  ⟨by rfl, by rfl, by rfl, by rfl⟩

/-- C7 (amended): for every payload the flag is resolved by exactly this
ordered strategy table: direct boolean ban fields; inverted `published`
and `listing_visible` booleans; the free-text status matched against the
ban vocabulary; recursive search into the known nested sub-objects at
any depth; inverted `is_published` and `is_available` booleans;
otherwise unknown, never defaulted to false. -/
theorem C7_strategy_order (data : List (String × PyVal)) :
    _extract_banned_flag data = amendedBanFlag data :=
  banGo_eq_amendedGo (fieldsDepth data) data

theorem dictGet_dictPop_self {α : Type} (d : List (String × α)) (k : String) :
    dictGet (dictPop d k) k = none := by
  induction d with
  | nil => rfl
  | cons p rest ih =>
    obtain ⟨k', v'⟩ := p
    rw [dictPop, List.filter]
    by_cases hk : k' = k
    · subst hk
      simp only [bne_self_eq_false]
      exact ih
    · have hne : (k' != k) = true := by simp [bne, hk]
      rw [hne]
      rw [dictGet_cons]
      have : (k' == k) = false := by simp [hk]
      rw [this]
      simp only [Bool.false_eq_true, if_false]
      exact ih

theorem finishCompute_invoked (cache : List (String × CacheRec)) (key : String)
    (now : Int) (computed : List PlayItem) :
    (finishCompute cache key now computed).invoked = true ∧
    (finishCompute cache key now computed).result = computed := by
  rw [finishCompute]
  by_cases h : computed.isEmpty
  · rw [if_pos h]; exact ⟨rfl, rfl⟩
  · rw [if_neg h]; exact ⟨rfl, rfl⟩

theorem finishCompute_empty_gone (cache : List (String × CacheRec)) (key : String)
    (now : Int) :
    dictGet (finishCompute cache key now []).cache key = none := by
  rw [finishCompute]
  simp only [List.isEmpty_nil, if_true]
  exact dictGet_dictPop_self cache key

/-- C5: cache semantics of `play_search_cached`.  A stored entry whose
payload is missing or empty is never served: within the TTL window it is
evicted and the compute function is invoked again; whenever the compute
function is invoked and returns an empty payload, no entry for the key
is persisted; a stored non-empty payload whose age is below the TTL is
returned as-is without invoking the compute function and without
touching the cache; and an expired entry is recomputed. -/
theorem C5_cache_semantics (cache : List (String × CacheRec)) (key : String)
    (now ttl_days : Int) (computed : List PlayItem) :
    (∀ r, dictGet cache key = some r → _expired r.ts now ttl_days = false →
      (r.data = none ∨ r.data = some []) →
      (play_search_cached cache key now ttl_days computed).invoked = true ∧
      (play_search_cached cache key now ttl_days computed).result = computed) ∧
    ((play_search_cached cache key now ttl_days computed).invoked = true →
      computed = [] →
      dictGet (play_search_cached cache key now ttl_days computed).cache key = none) ∧
    (∀ r l, dictGet cache key = some r → _expired r.ts now ttl_days = false →
      r.data = some l → l ≠ [] →
      play_search_cached cache key now ttl_days computed =
        { result := l, cache := cache, invoked := false }) ∧
    (∀ r, dictGet cache key = some r → _expired r.ts now ttl_days = true →
      (play_search_cached cache key now ttl_days computed).invoked = true ∧
      (play_search_cached cache key now ttl_days computed).result = computed) := by
  refine ⟨?_, ?_, ?_, ?_⟩
  · intro r hr hfresh hempty
    rw [play_search_cached, hr]
    dsimp only
    rw [if_neg (by rw [hfresh]; exact Bool.false_ne_true)]
    rcases hempty with h | h
    · rw [h]
      exact finishCompute_invoked _ _ _ _
    · rw [h]
      dsimp only
      rw [if_pos (by rfl)]
      exact finishCompute_invoked _ _ _ _
  · intro hinv hcomp
    subst hcomp
    revert hinv
    rw [play_search_cached]
    cases hr : dictGet cache key with
    | none =>
      intro hinv
      exact finishCompute_empty_gone _ _ _
    | some r =>
      dsimp only
      by_cases hexp : _expired r.ts now ttl_days = true
      · rw [if_pos hexp]
        intro hinv
        exact finishCompute_empty_gone _ _ _
      · rw [if_neg hexp]
        cases hd : r.data with
        | none =>
          intro hinv
          exact finishCompute_empty_gone _ _ _
        | some l =>
          dsimp only
          by_cases hl : l.isEmpty = true
          · rw [if_pos hl]
            intro hinv
            exact finishCompute_empty_gone _ _ _
          · rw [if_neg hl]
            intro hinv
            exact absurd hinv Bool.false_ne_true
  · intro r l hr hfresh hd hl
    rw [play_search_cached, hr]
    dsimp only
    rw [if_neg (by rw [hfresh]; exact Bool.false_ne_true)]
    rw [hd]
    dsimp only
    have hle : l.isEmpty = false := by
      cases l with
      | nil => exact absurd rfl hl
      | cons a t => rfl
    rw [if_neg (by rw [hle]; exact Bool.false_ne_true)]
  · intro r hr hexp
    rw [play_search_cached, hr]
    dsimp only
    rw [if_pos hexp]
    exact finishCompute_invoked _ _ _ _

theorem C5_cache_semantics_witness :
    (dictGet [("k", CacheRec.mk (some 10) (some [PlayItem.mk "x" "x" "x"]))] "k"
      = some (CacheRec.mk (some 10) (some [PlayItem.mk "x" "x" "x"]))) ∧
    _expired (some (10 : Int)) 12 5 = false ∧
    play_search_cached [("k", CacheRec.mk (some 10) (some [PlayItem.mk "x" "x" "x"]))]
        "k" 12 5 [] =
      { result := [PlayItem.mk "x" "x" "x"],
        cache := [("k", CacheRec.mk (some 10) (some [PlayItem.mk "x" "x" "x"]))],
        invoked := false } ∧
    _expired (some (10 : Int)) 20 5 = true ∧
    (play_search_cached [("k", CacheRec.mk (some 10) (some [PlayItem.mk "x" "x" "x"]))]
        "k" 20 5 []).invoked = true := by
  refine ⟨by rfl, by rfl, ?_, by rfl, ?_⟩
  · exact (C5_cache_semantics
      [("k", CacheRec.mk (some 10) (some [PlayItem.mk "x" "x" "x"]))] "k" 12 5
      []).2.2.1 _ _ (by rfl) (by rfl) (by rfl) (by simp)
  · exact ((C5_cache_semantics
      [("k", CacheRec.mk (some 10) (some [PlayItem.mk "x" "x" "x"]))] "k" 20 5
      []).2.2.2 _ (by rfl) (by rfl)).1


theorem pyMaxFold_spec : ∀ (t : List Cand) (best : Cand),
    (t.foldl (fun best x => if keyDaily x > keyDaily best then x else best) best = best ∧
      ∀ x ∈ t, keyDaily x ≤ keyDaily best) ∨
    (∃ t₁ m t₂, t = t₁ ++ m :: t₂ ∧
      t.foldl (fun best x => if keyDaily x > keyDaily best then x else best) best = m ∧
      keyDaily best < keyDaily m ∧
      (∀ x ∈ t₁, keyDaily x < keyDaily m) ∧
      (∀ x ∈ t₂, keyDaily x ≤ keyDaily m))
  | [], best => Or.inl ⟨rfl, by simp⟩
  | a :: t, best => by
    rw [List.foldl_cons]
    by_cases hab : keyDaily a > keyDaily best
    · rw [if_pos hab]
      rcases pyMaxFold_spec t a with ⟨hf, hall⟩ | ⟨t₁, m, t₂, happ, hf, hlt, hbef, haft⟩
      · exact Or.inr ⟨[], a, t, by simp, hf, hab, by simp, hall⟩
      · refine Or.inr ⟨a :: t₁, m, t₂, by rw [happ, List.cons_append], hf,
          lt_trans hab hlt, ?_, haft⟩
        intro x hx
        rcases List.mem_cons.mp hx with hx | hx
        · subst hx; exact hlt
        · exact hbef x hx
    · rw [if_neg hab]
      have hab' : keyDaily a ≤ keyDaily best := le_of_not_lt hab
      rcases pyMaxFold_spec t best with ⟨hf, hall⟩ | ⟨t₁, m, t₂, happ, hf, hlt, hbef, haft⟩
      · refine Or.inl ⟨hf, ?_⟩
        intro x hx
        rcases List.mem_cons.mp hx with hx | hx
        · subst hx; exact hab'
        · exact hall x hx
      · refine Or.inr ⟨a :: t₁, m, t₂, by rw [happ, List.cons_append], hf, hlt, ?_, haft⟩
        intro x hx
        rcases List.mem_cons.mp hx with hx | hx
        · subst hx; exact lt_of_le_of_lt hab' hlt
        · exact hbef x hx

theorem filter_decomp {α : Type} (p : α → Bool) :
    ∀ (l f₁ f₂ : List α) (m : α), l.filter p = f₁ ++ m :: f₂ →
      ∃ l₁ l₂, l = l₁ ++ m :: l₂ ∧ l₁.filter p = f₁ ∧ l₂.filter p = f₂
  | [], f₁, f₂, m, h => by
    exact absurd h.symm (by simp)
  | a :: l, f₁, f₂, m, h => by
    rw [List.filter_cons] at h
    by_cases hp : p a = true
    · rw [if_pos hp] at h
      cases f₁ with
      | nil =>
        simp only [List.nil_append] at h
        injection h with h1 h2
        subst h1
        exact ⟨[], l, by simp, rfl, h2⟩
      | cons b f₁ =>
        rw [List.cons_append] at h
        injection h with h1 h2
        subst h1
        obtain ⟨l₁, l₂, hl, hf1, hf2⟩ := filter_decomp p l f₁ f₂ m h2
        exact ⟨a :: l₁, l₂, by rw [hl, List.cons_append],
          by rw [List.filter_cons, if_pos hp, hf1], hf2⟩
    · rw [if_neg hp] at h
      obtain ⟨l₁, l₂, hl, hf1, hf2⟩ := filter_decomp p l f₁ f₂ m h
      exact ⟨a :: l₁, l₂, by rw [hl, List.cons_append],
        by rw [List.filter_cons, if_neg hp, hf1], hf2⟩

/-- C6: for every non-empty list of enriched candidates the reconciler
selects some candidate, never no result; when all daily metrics are
missing it is the first candidate in input order; otherwise it is the
candidate with the maximum daily metric, ties broken by first occurrence
in input order. -/
theorem C6_reconciler_selection (l : List Cand) (hne : l ≠ []) :
    ∃ sel, selectTop l = some sel ∧ SelectedCompetitor l sel := by
  have hie : l.isEmpty = false := by
    cases l with
    | nil => exact absurd rfl hne
    | cons a t => rfl
  rw [selectTop, if_neg (by rw [hie]; exact Bool.false_ne_true)]
  cases hf : l.filter (fun x => x.daily.isSome) with
  | nil =>
    cases l with
    | nil => exact absurd rfl hne
    | cons a t =>
      refine ⟨a, rfl, List.mem_cons_self a t, fun _ => rfl, ?_⟩
      intro ⟨x, hx, hxd⟩
      have : x ∈ (a :: t).filter (fun x => x.daily.isSome) :=
        List.mem_filter.mpr ⟨hx, Option.isSome_iff_ne_none.mpr hxd⟩
      rw [hf] at this
      cases this
  | cons h t =>
    have hmem : ∀ x : Cand, x ∈ l → x.daily ≠ none →
        x ∈ h :: t := by
      intro x hx hxd
      have : x ∈ l.filter (fun x => x.daily.isSome) :=
        List.mem_filter.mpr ⟨hx, Option.isSome_iff_ne_none.mpr hxd⟩
      rwa [hf] at this
    have hmem' : ∀ x : Cand, x ∈ h :: t → x ∈ l ∧ x.daily ≠ none := by
      intro x hx
      rw [← hf] at hx
      have := List.mem_filter.mp hx
      exact ⟨this.1, Option.isSome_iff_ne_none.mp this.2⟩
    rcases pyMaxFold_spec t h with ⟨hfold, hall⟩ | ⟨t₁, m, t₂, happ, hfold, hlt, hbef, haft⟩
    · refine ⟨h, by show some (pyMaxByDaily h t) = some h; rw [pyMaxByDaily, hfold], (hmem' h (List.mem_cons_self h t)).1, ?_, ?_⟩
      · intro hn
        exact absurd (hn h (hmem' h (List.mem_cons_self h t)).1)
          (hmem' h (List.mem_cons_self h t)).2
      · intro _
        refine ⟨(hmem' h (List.mem_cons_self h t)).2, ?_, ?_⟩
        · intro x hx hxd
          rcases List.mem_cons.mp (hmem x hx hxd) with hx' | hx'
          · subst hx'; exact le_refl _
          · exact hall x hx'
        · obtain ⟨l₁, l₂, hl, hf1, hf2⟩ :=
            filter_decomp (fun x => x.daily.isSome) l [] t h (by rw [hf]; rfl)
          refine ⟨l₁, l₂, hl, ?_⟩
          intro x hx hxd
          have : x ∈ l₁.filter (fun x => x.daily.isSome) :=
            List.mem_filter.mpr ⟨hx, Option.isSome_iff_ne_none.mpr hxd⟩
          rw [hf1] at this
          cases this
    · refine ⟨m, by show some (pyMaxByDaily h t) = some m; rw [pyMaxByDaily, hfold], ?_, ?_, ?_⟩
      · have hm : m ∈ h :: t := by
          rw [happ]
          exact List.mem_cons_of_mem h (List.mem_append_right t₁ (List.mem_cons_self m t₂))
        exact (hmem' m hm).1
      · intro hn
        exfalso
        exact absurd (hn h (hmem' h (List.mem_cons_self h t)).1)
          (hmem' h (List.mem_cons_self h t)).2
      · intro _
        have hm : m ∈ h :: t := by
          rw [happ]
          exact List.mem_cons_of_mem h (List.mem_append_right t₁ (List.mem_cons_self m t₂))
        refine ⟨(hmem' m hm).2, ?_, ?_⟩
        · intro x hx hxd
          rcases List.mem_cons.mp (hmem x hx hxd) with hx' | hx'
          · subst hx'; exact le_of_lt hlt
          · rw [happ] at hx'
            rcases List.mem_append.mp hx' with hx' | hx'
            · exact le_of_lt (hbef x hx')
            · rcases List.mem_cons.mp hx' with hx' | hx'
              · subst hx'; exact le_refl _
              · exact haft x hx'
        · obtain ⟨l₁, l₂, hl, hf1, hf2⟩ :=
            filter_decomp (fun x => x.daily.isSome) l (h :: t₁) t₂ m
              (by rw [hf, happ, List.cons_append])
          refine ⟨l₁, l₂, hl, ?_⟩
          intro x hx hxd
          have : x ∈ l₁.filter (fun x => x.daily.isSome) :=
            List.mem_filter.mpr ⟨hx, Option.isSome_iff_ne_none.mpr hxd⟩
          rw [hf1] at this
          rcases List.mem_cons.mp this with hx' | hx'
          · subst hx'; exact hlt
          · exact hbef x hx'

theorem C6_reconciler_selection_witness :
    ([Cand.mk "a" "A" "ua" none none, Cand.mk "b" "B" "ub" (some 50) none,
      Cand.mk "c" "C" "uc" (some 200) none] : List Cand) ≠ [] ∧
    (∃ sel, selectTop [Cand.mk "a" "A" "ua" none none,
        Cand.mk "b" "B" "ub" (some 50) none,
        Cand.mk "c" "C" "uc" (some 200) none] = some sel ∧
      SelectedCompetitor [Cand.mk "a" "A" "ua" none none,
        Cand.mk "b" "B" "ub" (some 50) none,
        Cand.mk "c" "C" "uc" (some 200) none] sel) ∧
    selectTop [Cand.mk "a" "A" "ua" none none, Cand.mk "b" "B" "ub" (some 50) none,
      Cand.mk "c" "C" "uc" (some 200) none] = some (Cand.mk "c" "C" "uc" (some 200) none) ∧
    selectTop [Cand.mk "a" "A" "ua" none none, Cand.mk "b" "B" "ub" none none]
      = some (Cand.mk "a" "A" "ua" none none) :=
  ⟨by simp, C6_reconciler_selection _ (by simp), by rfl, by rfl⟩

end KeywordPipeline
